import Mathlib

/-!
Shallow embedding of the Flipper plugin lifecycle manager
(`desktop/flipper-ui-core/src/dispatcher/pluginManager.tsx`) and of the
plugin-instance / deep-link state machines exercised by
`desktop/app/src/__tests__/PluginContainer.node.tsx`.

Stateful TS code is modelled by explicit state passing: a computation is a
function `St → Except Unit α × St`.  Calls into external collaborators
(`Client.startPluginIfNeeded`, `Device.loadDevicePlugin`, `unloadModule`, …)
are recorded as events in a trace inside the state; an `Env` decides which of
those calls throw, so JS exceptions are modelled by `Except.error`.
Store dispatches are recorded in the same trace and applied to the registry
state by a reducer.
-/

namespace PluginManager

/-- Static on-disk metadata of a plugin version
(`ActivatablePluginDetails`): bundled plugins cannot be unloaded from the
module cache; `entry` is the module path handed to `unloadModule`. -/
structure PluginDetails where
  title : String
  version : String
  isBundled : Bool
  entry : String
  deriving DecidableEq, Repr

/-- Resolved plugin definition (`PluginDefinition`): identity, details and
whether it is a device plugin (`isDevicePluginDefinition`). -/
structure PluginDefinition where
  id : String
  details : PluginDetails
  isDevice : Bool
  deriving DecidableEq, Repr

/-- Connection query of a client (`client.query`): the app name and the
serial of the device it runs on. -/
structure ClientQuery where
  app : String
  device_id : String
  deriving DecidableEq, Repr

/-- A live client connection.  `supportedPlugins` backs `supportsPlugin`,
`backgroundPlugins` backs `isBackgroundPlugin`. -/
structure Client where
  id : String
  query : ClientQuery
  supportedPlugins : List String
  backgroundPlugins : List String
  deriving DecidableEq, Repr

/-- A live device connection; `supportedPlugins` backs `supportsPlugin`. -/
structure Device where
  serial : String
  supportedPlugins : List String
  deriving DecidableEq, Repr

/-- Store actions dispatched by the plugin manager. -/
inductive Action where
  | setPluginEnabled (pluginId app : String)
  | setPluginDisabled (pluginId app : String)
  | setDevicePluginEnabled (pluginId : String)
  | setDevicePluginDisabled (pluginId : String)
  | clearMessageQueue (pluginKey : String)
  | pluginLoaded (plugin : PluginDefinition)
  | pluginUninstalled (details : PluginDetails)
  | pluginCommandsProcessed (n : Nat)
  deriving DecidableEq, Repr

/-- Calls into external collaborators that can throw (JS exceptions). -/
inductive ExtCall where
  | startPluginIfNeeded (clientId pluginId : String)
  | stopPluginIfNeeded (clientId pluginId : String)
  | initPlugin (clientId pluginId : String)
  | deinitPlugin (clientId pluginId : String)
  | loadDevicePlugin (serial pluginId : String)
  | unloadDevicePlugin (serial pluginId : String)
  | unloadModule (entry : String)
  deriving DecidableEq, Repr

/-- Observable events, in chronological order. -/
inductive Event where
  | call (c : ExtCall)
  | dispatch (a : Action)
  | logError (msg : String)
  | showErrorNotification (msg : String)
  deriving DecidableEq, Repr

/-- Redux-style store state visible to the plugin manager
(`state.connections` and `state.plugins`), plus the event trace. -/
structure St where
  clients : List Client
  devices : List Device
  selectedAppId : Option String
  enabledPlugins : List (String × List String)
  enabledDevicePlugins : List String
  clientPlugins : List (String × PluginDefinition)
  devicePlugins : List (String × PluginDefinition)
  trace : List Event
  deriving DecidableEq, Repr

/-- Association-list lookup used for the registry maps. -/
def lookupA {α : Type} (m : List (String × α)) (k : String) : Option α :=
  match m with
  | [] => none
  | (k', v) :: rest => if k' = k then some v else lookupA rest k

/-- Association-list insert-or-replace. -/
def insertA {α : Type} (m : List (String × α)) (k : String) (v : α) :
    List (String × α) :=
  match m with
  | [] => [(k, v)]
  | (k', v') :: rest =>
    if k' = k then (k, v) :: rest else (k', v') :: insertA rest k v

/-- Per-app enabled-plugin list; `enabledPlugins[app]?.includes(id)` reads an
absent entry as the empty list (optional chaining yields a falsy value). -/
def enabledFor (m : List (String × List String)) (app : String) :
    List String :=
  (lookupA m app).getD []

/-- Modelled from the spec: the store reducers behind the dispatch actions
(`setPluginEnabled` and friends live in reducer modules that are external
collaborators here).  Per §3, enabled plugins are a per-app-name set of
plugin ids plus a global set of enabled device-plugin ids, and `pluginLoaded`
registers the definition as current for its id.  Actions without a
registry effect relevant to this subsystem only leave a trace entry. -/
def reduce (s : St) (a : Action) : St :=
  match a with
  | .setPluginEnabled pid app =>
    let cur := enabledFor s.enabledPlugins app
    { s with enabledPlugins :=
        (insertA s.enabledPlugins app
          (if pid ∈ cur then cur else cur ++ [pid])) }
  | .setPluginDisabled pid app =>
    let cur := enabledFor s.enabledPlugins app
    { s with enabledPlugins :=
        (insertA s.enabledPlugins app (cur.filter (· ≠ pid))) }
  | .setDevicePluginEnabled pid =>
    { s with enabledDevicePlugins :=
        if pid ∈ s.enabledDevicePlugins then s.enabledDevicePlugins
        else s.enabledDevicePlugins ++ [pid] }
  | .setDevicePluginDisabled pid =>
    { s with enabledDevicePlugins :=
        s.enabledDevicePlugins.filter (· ≠ pid) }
  | .pluginLoaded p =>
    if p.isDevice then
      { s with devicePlugins := insertA s.devicePlugins p.id p }
    else
      { s with clientPlugins := insertA s.clientPlugins p.id p }
  | _ => s

/-- Dispatching records the action in the trace and applies the reducer. -/
def applyAction (s : St) (a : Action) : St :=
  let s' := reduce s a
  { s' with trace := s.trace ++ [Event.dispatch a] }

/-- Environment: which external calls throw, and what `requirePlugin`
resolves a descriptor to (`none` models a resolution failure). -/
structure Env where
  fails : ExtCall → Bool
  require : PluginDetails → Option PluginDefinition

/-- An environment in which no external lifecycle call throws. -/
def Env.reliable (env : Env) : Prop := ∀ c, env.fails c = false

/-- Computations: state-passing with JS-style exceptions. -/
def M (α : Type) : Type := St → Except Unit α × St

instance : Monad M where
  pure a := fun s => (Except.ok a, s)
  bind m f := fun s =>
    match m s with
    | (Except.ok a, s') => f a s'
    | (Except.error e, s') => (Except.error e, s')

/-- Read the store state (`store.getState()`). -/
def getSt : M St := fun s => (Except.ok s, s)

/-- Dispatch an action (`store.dispatch`); never throws. -/
def dispatchM (a : Action) : M Unit := fun s => (Except.ok (), applyAction s a)

/-- Perform an external collaborator call: the call is recorded in the trace
(it did begin) and throws when the environment says so. -/
def extCall (env : Env) (c : ExtCall) : M Unit := fun s =>
  let s' := { s with trace := s.trace ++ [Event.call c] }
  if env.fails c then (Except.error (), s') else (Except.ok (), s')

/-- Record a `console.error`. -/
def logErrorM (msg : String) : M Unit := fun s =>
  (Except.ok (), { s with trace := s.trace ++ [Event.logError msg] })

/-- Record a user-visible error notification. -/
def showErrorNotificationM (msg : String) : M Unit := fun s =>
  (Except.ok (), { s with trace := s.trace ++ [Event.showErrorNotification msg] })

/-- JS `try`/`catch`: on a throw, the handler runs from the state left by the
failing computation. -/
def tryCatchM {α : Type} (m : M α) (h : Unit → M α) : M α := fun s =>
  match m s with
  | (Except.ok a, s') => (Except.ok a, s')
  | (Except.error e, s') => h e s'

/-- JS `Array.prototype.forEach`: sequential; an exception thrown by the
callback propagates and the remaining elements are not visited. -/
def forEachM {α : Type} (xs : List α) (f : α → M Unit) : M Unit :=
  match xs with
  | [] => pure ()
  | x :: rest => do
    f x
    forEachM rest f

/-- Plugins enabled by default in the background
(`defaultEnabledBackgroundPlugins` from `utils/pluginUtils`). -/
def defaultEnabledBackgroundPlugins : List String := ["Navigation"]

/-- Characters of a client id before the first `#` separator. -/
def takeUntilHash (cs : List Char) : List Char :=
  match cs with
  | [] => []
  | c :: rest => if c = '#' then [] else c :: takeUntilHash rest

/-- Modelled from the spec and `flipper-common`: `deconstructClientId`
splits a client id of shape `app#os#device#device_id` and
`getSelectedAppName` takes its `app` part. -/
def deconstructClientIdApp (clientId : String) : String :=
  String.mk (takeUntilHash clientId.data)

/-- Modelled from the spec: `getPluginKey` (from `utils/pluginKey`, not part
of this excerpt) builds the message-queue key of a client's plugin from the
client id and the plugin id. -/
def getPluginKey (clientId : String) (pluginId : String) : String :=
  clientId ++ "#" ++ pluginId

/-- Source `getSelectedAppName`: the app part of `connections.selectedAppId`
when one is selected. -/
def getSelectedAppName (s : St) : Option String :=
  s.selectedAppId.map deconstructClientIdApp

/-- JS truthiness of an optional string: `undefined` and the empty string
are both falsy (`if (!selectedApp) return;`). -/
def truthy (a : Option String) : Bool :=
  match a with
  | none => false
  | some str => !(str = "")

/-- Source `getClientsByAppName` (from `reducers/connections`): the clients
whose connection query names the given app. -/
def getClientsByAppName (clients : List Client) (appName : String) :
    List Client :=
  clients.filter (fun c => c.query.app = appName)

/-- Source `startPlugin`: always `startPluginIfNeeded`; additionally sends
`initPlugin` to background plugins that are forced or not
default-enabled. -/
def startPlugin (env : Env) (client : Client) (plugin : PluginDefinition)
    (forceInitBackgroundPlugin : Bool := false) : M Unit := do
  extCall env (.startPluginIfNeeded client.id plugin.id)
  if (forceInitBackgroundPlugin
        || !(plugin.id ∈ defaultEnabledBackgroundPlugins))
      && plugin.id ∈ client.backgroundPlugins then
    extCall env (.initPlugin client.id plugin.id)

/-- Source `stopPlugin`: sends `deinitPlugin` to background plugins that are
forced or not default-enabled, then always `stopPluginIfNeeded`. -/
def stopPlugin (env : Env) (client : Client) (pluginId : String)
    (forceInitBackgroundPlugin : Bool := false) : M Bool := do
  if (forceInitBackgroundPlugin
        || !(pluginId ∈ defaultEnabledBackgroundPlugins))
      && pluginId ∈ client.backgroundPlugins then
    extCall env (.deinitPlugin client.id pluginId)
  extCall env (.stopPluginIfNeeded client.id pluginId)
  pure true

/-- Source `unloadPluginModule`: bundled plugins are never unloaded from the
module cache. -/
def unloadPluginModule (env : Env) (plugin : PluginDetails) : M Unit := do
  if plugin.isBundled then
    pure ()
  else
    extCall env (.unloadModule plugin.entry)

/-- Source `switchClientPlugin`: toggle keyed off the registry's current
enabled set for the resolved app. -/
def switchClientPlugin (env : Env) (plugin : PluginDefinition)
    (selectedApp : Option String) : M Unit := do
  let s ← getSt
  let selectedApp := match selectedApp with
    | some a => some a
    | none => getSelectedAppName s
  if !(truthy selectedApp) then
    pure ()
  else
    let app := selectedApp.getD ""
    let s ← getSt
    let clients := getClientsByAppName s.clients app
    if plugin.id ∈ enabledFor s.enabledPlugins app then do
      forEachM clients (fun client => do
        let _ ← stopPlugin env client plugin.id
        dispatchM (.clearMessageQueue (getPluginKey client.id plugin.id)))
      dispatchM (.setPluginDisabled plugin.id app)
    else do
      forEachM clients (fun client => startPlugin env client plugin)
      dispatchM (.setPluginEnabled plugin.id app)

/-- Source `switchDevicePlugin`: toggle keyed off the global enabled
device-plugin set. -/
def switchDevicePlugin (env : Env) (plugin : PluginDefinition) : M Unit := do
  let s ← getSt
  let devicesWithPlugin :=
    s.devices.filter (fun d => plugin.id ∈ d.supportedPlugins)
  if plugin.id ∈ s.enabledDevicePlugins then do
    forEachM devicesWithPlugin
      (fun d => extCall env (.unloadDevicePlugin d.serial plugin.id))
    dispatchM (.setDevicePluginDisabled plugin.id)
  else do
    forEachM devicesWithPlugin
      (fun d => extCall env (.loadDevicePlugin d.serial plugin.id))
    dispatchM (.setDevicePluginEnabled plugin.id)

/-- Source `updateClientPlugin`: optionally enable for the selected app,
then stop the old instances on all clients with the plugin enabled, start
new ones, register the new definition and unload the previous version. -/
def updateClientPlugin (env : Env) (plugin : PluginDefinition)
    (enable : Bool) : M Unit := do
  let clients := (← getSt).clients
  if enable then
    let selectedApp := getSelectedAppName (← getSt)
    if truthy selectedApp then
      dispatchM (.setPluginEnabled plugin.id (selectedApp.getD ""))
  let s ← getSt
  let clientsWithEnabledPlugin := clients.filter (fun c =>
    plugin.id ∈ c.supportedPlugins
      && plugin.id ∈ enabledFor s.enabledPlugins c.query.app)
  let previousVersion := lookupA (← getSt).clientPlugins plugin.id
  forEachM clientsWithEnabledPlugin (fun client => do
    let _ ← stopPlugin env client plugin.id
    pure ())
  forEachM clientsWithEnabledPlugin
    (fun client => startPlugin env client plugin true)
  dispatchM (.pluginLoaded plugin)
  match previousVersion with
  | some prev => unloadPluginModule env prev.details
  | none => pure ()

/-- Source `updateDevicePlugin`: optionally enable, unload the instance from
every supporting device, unload the previous module version, register the
new definition, then load the instance on every supporting device. -/
def updateDevicePlugin (env : Env) (plugin : PluginDefinition)
    (enable : Bool) : M Unit := do
  if enable then
    dispatchM (.setDevicePluginEnabled plugin.id)
  let s ← getSt
  let devicesWithEnabledPlugin :=
    s.devices.filter (fun d => plugin.id ∈ d.supportedPlugins)
  forEachM devicesWithEnabledPlugin
    (fun d => extCall env (.unloadDevicePlugin d.serial plugin.id))
  let previousVersion := lookupA (← getSt).devicePlugins plugin.id
  match previousVersion with
  | some prev => unloadPluginModule env prev.details
  | none => pure ()
  dispatchM (.pluginLoaded plugin)
  forEachM devicesWithEnabledPlugin
    (fun d => extCall env (.loadDevicePlugin d.serial plugin.id))

/-- Source `updatePlugin`: dispatch on the plugin kind. -/
def updatePlugin (env : Env) (plugin : PluginDefinition) (enablePlugin : Bool) :
    M Unit :=
  if plugin.isDevice then
    updateDevicePlugin env plugin enablePlugin
  else
    updateClientPlugin env plugin enablePlugin

/-- Source `switchPlugin`: dispatch on the plugin kind. -/
def switchPlugin (env : Env) (plugin : PluginDefinition)
    (selectedApp : Option String) : M Unit :=
  if plugin.isDevice then
    switchDevicePlugin env plugin
  else
    switchClientPlugin env plugin selectedApp

/-- Payload of a LOAD_PLUGIN command (`LoadPluginActionPayload`). -/
structure LoadPluginActionPayload where
  plugin : PluginDetails
  enable : Bool
  notifyIfFailed : Bool
  deriving DecidableEq, Repr

/-- Source `loadPlugin`: resolves the descriptor via `requirePlugin` and
delegates to `updatePlugin`; any failure of either is caught, logged and
optionally surfaced as a notification.  Never throws to its caller. -/
def loadPlugin (env : Env) (payload : LoadPluginActionPayload) : M Unit :=
  tryCatchM
    (do
      match env.require payload.plugin with
      | none => fun s => (Except.error (), s)
      | some plugin => updatePlugin env plugin payload.enable)
    (fun _ => do
      logErrorM ("Failed to load plugin " ++ payload.plugin.title ++ " v"
        ++ payload.plugin.version)
      if payload.notifyIfFailed then
        showErrorNotificationM ("Failed to load plugin \x22"
          ++ payload.plugin.title ++ "\x22 v" ++ payload.plugin.version))

/-- Source `uninstallPlugin`: stop the plugin on every client, unload its
module unless bundled, dispatch `pluginUninstalled`; failures are caught,
logged and surfaced as a notification. -/
def uninstallPlugin (env : Env) (plugin : PluginDefinition) : M Unit :=
  tryCatchM
    (do
      let clients := (← getSt).clients
      forEachM clients (fun client => do
        let _ ← stopPlugin env client plugin.id
        pure ())
      if !plugin.details.isBundled then
        unloadPluginModule env plugin.details
      dispatchM (.pluginUninstalled plugin.details))
    (fun _ => do
      logErrorM ("Failed to uninstall plugin " ++ plugin.details.title
        ++ " v" ++ plugin.details.version)
      showErrorNotificationM ("Failed to uninstall plugin \x22"
        ++ plugin.details.title ++ "\x22 v" ++ plugin.details.version))

/-- Plugin commands accumulated in the queue (`PluginCommand`). -/
inductive PluginCommand where
  | loadPlugin (payload : LoadPluginActionPayload)
  | uninstallPlugin (plugin : PluginDefinition)
  | updatePlugin (plugin : PluginDefinition) (enablePlugin : Bool)
  | switchPlugin (plugin : PluginDefinition) (selectedApp : Option String)
  deriving DecidableEq, Repr

/-- One iteration of the drain loop's `switch` on the command tag. -/
def handleCommand (env : Env) (command : PluginCommand) : M Unit :=
  match command with
  | .loadPlugin payload => loadPlugin env payload
  | .uninstallPlugin plugin => uninstallPlugin env plugin
  | .updatePlugin plugin enablePlugin => updatePlugin env plugin enablePlugin
  | .switchPlugin plugin selectedApp => switchPlugin env plugin selectedApp

/-- One iteration of the drain loop, with the `try`/`catch` around the
handler: a throwing handler is logged and the loop continues. -/
def handleCommandCaught (env : Env) (command : PluginCommand) (s : St) : St :=
  match handleCommand env command s with
  | (Except.ok _, s') => s'
  | (Except.error _, s') =>
    { s' with trace := s'.trace ++ [Event.logError "Failed to process command"] }

/-- The drain loop of `processPluginCommandsQueue`, before the final
`pluginCommandsProcessed` dispatch. -/
def drainLoop (env : Env) (queue : List PluginCommand) (s : St) : St :=
  match queue with
  | [] => s
  | command :: rest => drainLoop env rest (handleCommandCaught env command s)

/-- Source `processPluginCommandsQueue`: handle every command of the
snapshot in order, each in its own `try`/`catch`, then dispatch
`pluginCommandsProcessed` with the snapshot's length. -/
def processPluginCommandsQueue (env : Env) (queue : List PluginCommand)
    (s : St) : St :=
  applyAction (drainLoop env queue s) (.pluginCommandsProcessed queue.length)

/-- The guard of the source's background init/deinit signal, verbatim:
`(force || !defaultEnabledBackgroundPlugins.includes(id)) &&
client.isBackgroundPlugin(id)`. -/
def bgGuard (client : Client) (pluginId : String) (force : Bool) : Bool :=
  (force || !(pluginId ∈ defaultEnabledBackgroundPlugins))
    && pluginId ∈ client.backgroundPlugins

/-- Explicit result of `startPlugin`. -/
def startPluginRes (env : Env) (client : Client) (plugin : PluginDefinition)
    (force : Bool) : Except Unit Unit :=
  if env.fails (.startPluginIfNeeded client.id plugin.id) then .error ()
  else if bgGuard client plugin.id force
      && env.fails (.initPlugin client.id plugin.id) then .error ()
  else .ok ()

/-- Explicit trace of `startPlugin`. -/
def startPluginTrace (env : Env) (client : Client) (plugin : PluginDefinition)
    (force : Bool) : List Event :=
  [Event.call (.startPluginIfNeeded client.id plugin.id)]
    ++ (if !env.fails (.startPluginIfNeeded client.id plugin.id)
          && bgGuard client plugin.id force then
          [Event.call (.initPlugin client.id plugin.id)]
        else [])

/-- Explicit result of `stopPlugin`. -/
def stopPluginRes (env : Env) (client : Client) (pluginId : String)
    (force : Bool) : Except Unit Bool :=
  if bgGuard client pluginId force
      && env.fails (.deinitPlugin client.id pluginId) then .error ()
  else if env.fails (.stopPluginIfNeeded client.id pluginId) then .error ()
  else .ok true

/-- Explicit trace of `stopPlugin`: the deinit signal (when sent) precedes
the generic stop call. -/
def stopPluginTrace (env : Env) (client : Client) (pluginId : String)
    (force : Bool) : List Event :=
  (if bgGuard client pluginId force then
    [Event.call (.deinitPlugin client.id pluginId)]
   else [])
    ++ (if bgGuard client pluginId force
          && env.fails (.deinitPlugin client.id pluginId) then []
        else [Event.call (.stopPluginIfNeeded client.id pluginId)])

/-- Explicit result of `unloadPluginModule`. -/
def unloadPluginModuleRes (env : Env) (plugin : PluginDetails) :
    Except Unit Unit :=
  if plugin.isBundled then .ok ()
  else if env.fails (.unloadModule plugin.entry) then .error ()
  else .ok ()

/-- Explicit trace of `unloadPluginModule`: empty for bundled plugins. -/
def unloadPluginModuleTrace (plugin : PluginDetails) : List Event :=
  if plugin.isBundled then [] else [Event.call (.unloadModule plugin.entry)]

/-- Sequential result of running a per-element action until the first
throw (JS `forEach` semantics). -/
def seqRes {α : Type} (re : α → Except Unit Unit) :
    List α → Except Unit Unit
  | [] => Except.ok ()
  | x :: xs =>
    match re x with
    | Except.error e => Except.error e
    | Except.ok _ => seqRes re xs

/-- Sequential trace of running a per-element action until the first
throw. -/
def seqTrace {α : Type} (re : α → Except Unit Unit) (tr : α → List Event) :
    List α → List Event
  | [] => []
  | x :: xs =>
    match re x with
    | Except.error _ => tr x
    | Except.ok _ => tr x ++ seqTrace re tr xs

/-- A fully reliable environment: no external call throws, plugin
resolution fails (unused by lifecycle primitives). -/
def envOk : Env := { fails := fun _ => false, require := fun _ => none }

/-- Concrete plugin details used by the witnesses. -/
def detailsA : PluginDetails :=
  { title := "A", version := "1", isBundled := false, entry := "pathA" }

/-- Concrete client plugin used by the witnesses. -/
def pluginA : PluginDefinition :=
  { id := "A", details := detailsA, isDevice := false }

/-- Concrete client supporting plugin `A` as a background plugin. -/
def clientBg : Client :=
  { id := "app1#os#dev#serial1",
    query := { app := "app1", device_id := "serial1" },
    supportedPlugins := ["A"],
    backgroundPlugins := ["A"] }

/-- Concrete base state used by the witnesses. -/
def st0 : St :=
  { clients := [clientBg], devices := [], selectedAppId := none,
    enabledPlugins := [], enabledDevicePlugins := [], clientPlugins := [],
    devicePlugins := [], trace := [] }

/-- Result of a bare external call. -/
def extRes (env : Env) (c : ExtCall) : Except Unit Unit :=
  if env.fails c then .error () else .ok ()

/-- Result of a loop body that calls `stopPlugin` and discards its
value. -/
def stopBodyRes (env : Env) (c : Client) (pid : String) : Except Unit Unit :=
  match stopPluginRes env c pid false with
  | .error e => .error e
  | .ok _ => .ok ()

/-- The state after the optional enable dispatch at the top of
`updateClientPlugin`. -/
def updateClientEnabledState (plugin : PluginDefinition) (enable : Bool)
    (s : St) : St :=
  if enable && truthy (getSelectedAppName s) then
    applyAction s (.setPluginEnabled plugin.id ((getSelectedAppName s).getD ""))
  else s

/-- The clients affected by `updateClientPlugin`: connected clients that
support the plugin and have it enabled for their app, judged after the
optional enable dispatch. -/
def updateClientAffected (plugin : PluginDefinition) (enable : Bool)
    (s : St) : List Client :=
  s.clients.filter (fun c =>
    plugin.id ∈ c.supportedPlugins
      && plugin.id ∈ enabledFor
          (updateClientEnabledState plugin enable s).enabledPlugins
          c.query.app)

/-- Result of the stop pass of `updateClientPlugin`. -/
def ucpStopsRes (env : Env) (plugin : PluginDefinition) (enable : Bool)
    (s : St) : Except Unit Unit :=
  seqRes (fun c => stopBodyRes env c plugin.id)
    (updateClientAffected plugin enable s)

/-- Trace of the stop pass of `updateClientPlugin`. -/
def ucpStopsTrace (env : Env) (plugin : PluginDefinition) (enable : Bool)
    (s : St) : List Event :=
  seqTrace (fun c => stopBodyRes env c plugin.id)
    (fun c => stopPluginTrace env c plugin.id false)
    (updateClientAffected plugin enable s)

/-- Result of the start pass of `updateClientPlugin`. -/
def ucpStartsRes (env : Env) (plugin : PluginDefinition) (enable : Bool)
    (s : St) : Except Unit Unit :=
  seqRes (fun c => startPluginRes env c plugin true)
    (updateClientAffected plugin enable s)

/-- Trace of the start pass of `updateClientPlugin`. -/
def ucpStartsTrace (env : Env) (plugin : PluginDefinition) (enable : Bool)
    (s : St) : List Event :=
  seqTrace (fun c => startPluginRes env c plugin true)
    (fun c => startPluginTrace env c plugin true)
    (updateClientAffected plugin enable s)

/-- The state after the optional enable dispatch at the top of
`updateDevicePlugin`. -/
def updateDeviceEnabledState (plugin : PluginDefinition) (enable : Bool)
    (s : St) : St :=
  if enable then applyAction s (.setDevicePluginEnabled plugin.id) else s

/-- Result of the device-unload pass of `updateDevicePlugin`. -/
def udpUnloadsRes (env : Env) (plugin : PluginDefinition)
    (devs : List Device) : Except Unit Unit :=
  seqRes (fun d => extRes env (.unloadDevicePlugin d.serial plugin.id)) devs

/-- Trace of the device-unload pass of `updateDevicePlugin`. -/
def udpUnloadsTrace (env : Env) (plugin : PluginDefinition)
    (devs : List Device) : List Event :=
  seqTrace (fun d => extRes env (.unloadDevicePlugin d.serial plugin.id))
    (fun d => [Event.call (.unloadDevicePlugin d.serial plugin.id)]) devs

/-- Result of the device-load pass of `updateDevicePlugin`. -/
def udpLoadsRes (env : Env) (plugin : PluginDefinition)
    (devs : List Device) : Except Unit Unit :=
  seqRes (fun d => extRes env (.loadDevicePlugin d.serial plugin.id)) devs

/-- Trace of the device-load pass of `updateDevicePlugin`. -/
def udpLoadsTrace (env : Env) (plugin : PluginDefinition)
    (devs : List Device) : List Event :=
  seqTrace (fun d => extRes env (.loadDevicePlugin d.serial plugin.id))
    (fun d => [Event.call (.loadDevicePlugin d.serial plugin.id)]) devs

/-- Result of the module-unload step for an optional previous version. -/
def udpModuleRes (env : Env) (prev : Option PluginDefinition) :
    Except Unit Unit :=
  match prev with
  | some p => unloadPluginModuleRes env p.details
  | none => .ok ()

/-- Trace of the module-unload step for an optional previous version. -/
def udpModuleTrace (prev : Option PluginDefinition) : List Event :=
  match prev with
  | some p => unloadPluginModuleTrace p.details
  | none => []

/-- Explicit behaviour of `updateDevicePlugin` after the optional enable
dispatch: unload pass, module swap, `pluginLoaded` dispatch, load pass. -/
def udpAfter (env : Env) (plugin : PluginDefinition) (devs : List Device)
    (prev : Option PluginDefinition) (s₁ : St) : Except Unit Unit × St :=
  match udpUnloadsRes env plugin devs with
  | .error e =>
    (.error e,
     { s₁ with trace := (s₁.trace ++ udpUnloadsTrace env plugin devs) })
  | .ok _ =>
    match udpModuleRes env prev with
    | .error e =>
      (.error e,
       { s₁ with trace := (s₁.trace ++ udpUnloadsTrace env plugin devs
           ++ udpModuleTrace prev) })
    | .ok _ =>
      let s₂ := applyAction
        { s₁ with trace := (s₁.trace ++ udpUnloadsTrace env plugin devs
            ++ udpModuleTrace prev) }
        (.pluginLoaded plugin)
      (udpLoadsRes env plugin devs,
       { s₂ with trace := (s₂.trace ++ udpLoadsTrace env plugin devs) })

/-- Resolution of the target app in `switchClientPlugin`: the explicit
argument, or else the currently selected app. -/
def resolveApp (sel : Option String) (s : St) : Option String :=
  match sel with
  | some a => some a
  | none => getSelectedAppName s

/-- Trace of the disable-loop body of `switchClientPlugin`: stop the
instance, then clear its message queue. -/

def scpStopTrace (env : Env) (c : Client) (pid : String) : List Event :=
  stopPluginTrace env c pid false
    ++ (match stopPluginRes env c pid false with
        | .error _ => []
        | .ok _ =>
          [Event.dispatch (.clearMessageQueue (getPluginKey c.id pid))])

/-- Projection of an event to an `unloadModule` entry path. -/
def unloadOf (e : Event) : Option String :=
  match e with
  | .call (.unloadModule entry) => some entry
  | _ => none

/-- Entry paths passed to `unloadModule` in a trace, in order. -/
def unloadEvents (t : List Event) : List String := t.filterMap unloadOf

/-- Projection of an event to a `pluginCommandsProcessed` count. -/
def processedOf (e : Event) : Option Nat :=
  match e with
  | .dispatch (.pluginCommandsProcessed n) => some n
  | _ => none

/-- Counts reported through `pluginCommandsProcessed` in a trace. -/
def processedCounts (t : List Event) : List Nat := t.filterMap processedOf

/-- Start-phase instance events: `startPluginIfNeeded` and `initPlugin`. -/
def isStartEvent (e : Event) : Bool :=
  match e with
  | .call (.startPluginIfNeeded _ _) => true
  | .call (.initPlugin _ _) => true
  | _ => false

/-- Stop-phase instance events: `stopPluginIfNeeded` and `deinitPlugin`. -/
def isStopEvent (e : Event) : Bool :=
  match e with
  | .call (.stopPluginIfNeeded _ _) => true
  | .call (.deinitPlugin _ _) => true
  | _ => false

/-- Clients whose instance of a given plugin is stopped in a trace. -/
def stopTargets (pid : String) (t : List Event) : List String :=
  t.filterMap (fun e =>
    match e with
    | .call (.stopPluginIfNeeded cid pid2) =>
      if pid2 = pid then some cid else none
    | _ => none)

/-- Clients on which an instance of a given plugin is started in a trace. -/
def startTargets (pid : String) (t : List Event) : List String :=
  t.filterMap (fun e =>
    match e with
    | .call (.startPluginIfNeeded cid pid2) =>
      if pid2 = pid then some cid else none
    | _ => none)

/-- Concrete bundled plugin details used by the witnesses. -/
def detailsB : PluginDetails :=
  { title := "B", version := "2", isBundled := true, entry := "pathB" }

/-- Concrete bundled client plugin used by the witnesses. -/
def pluginB : PluginDefinition :=
  { id := "B", details := detailsB, isDevice := false }

/-- Concrete device supporting plugins `A` and `B`. -/
def deviceA : Device := { serial := "serial1", supportedPlugins := ["A", "B"] }

/-- Concrete state with a bundled previous version registered for `B`. -/
def stPrev : St :=
  { clients := [clientBg], devices := [deviceA], selectedAppId := none,
    enabledPlugins := [("app1", ["A", "B"])], enabledDevicePlugins := [],
    clientPlugins := [("B", pluginB)], devicePlugins := [("B", pluginB)],
    trace := [] }

/-- Events logged and surfaced by the catch block of `loadPlugin`. -/
def loadCatchTrace (payload : LoadPluginActionPayload) : List Event :=
  [Event.logError ("Failed to load plugin " ++ payload.plugin.title ++ " v"
      ++ payload.plugin.version)]
    ++ (if payload.notifyIfFailed then
         [Event.showErrorNotification ("Failed to load plugin \x22"
            ++ payload.plugin.title ++ "\x22 v" ++ payload.plugin.version)]
        else [])

/-- Environment in which every `deinitPlugin` call throws and resolution
yields plugin `A`. -/
def envFailDeinit : Env :=
  { fails := fun c =>
      match c with
      | .deinitPlugin _ _ => true
      | _ => false,
    require := fun _ => some pluginA }

/-- Concrete state with plugin `A` enabled for `app1`. -/
def stEnabled : St :=
  { clients := [clientBg], devices := [], selectedAppId := none,
    enabledPlugins := [("app1", ["A"])], enabledDevicePlugins := [],
    clientPlugins := [], devicePlugins := [], trace := [] }

/-- Concrete load payload used by the witnesses. -/
def payloadA : LoadPluginActionPayload :=
  { plugin := detailsA, enable := false, notifyIfFailed := true }

/-- Concrete device plugin used by the witnesses. -/
def pluginAd : PluginDefinition :=
  { id := "A", details := detailsA, isDevice := true }

/-- Concrete state where plugin `A` is supported but disabled for the
selected app. -/
def stDisabledSel : St :=
  { clients := [clientBg], devices := [],
    selectedAppId := some "app1#os#dev#serial1",
    enabledPlugins := [], enabledDevicePlugins := [], clientPlugins := [],
    devicePlugins := [], trace := [] }

/-- Lifecycle hooks fired on a plugin instance, tagged with the identity of
the instance object they fired on. -/
inductive Hook where
  | connect (instanceId : Nat)
  | disconnect (instanceId : Nat)
  deriving DecidableEq, Repr

/-- Modelled from the spec: the per-(owner, plugin) instance state behind
`Client.startPluginIfNeeded` / `stopPluginIfNeeded` (`Client.tsx` and the
Sandy plugin instance, which are not part of this excerpt).  Per §3 and
§4.6, an instance object is created exactly once per activation and
destroyed on deactivation, never reused; instance identity is modelled by a
fresh natural number drawn from `nextId`. -/
structure OwnerPluginState where
  live : Option Nat
  nextId : Nat
  hooks : List Hook
  deriving DecidableEq, Repr

/-- The state before any activation. -/
def initialOwnerPluginState : OwnerPluginState :=
  { live := none, nextId := 0, hooks := [] }

/-- Modelled from the spec: `startPluginIfNeeded` — idempotent
instantiate-and-connect; a fresh activation creates a new instance object
and fires its connect/activate hook. -/
def startPluginIfNeeded (o : OwnerPluginState) : OwnerPluginState :=
  match o.live with
  | some _ => o
  | none =>
    { live := some o.nextId, nextId := o.nextId + 1,
      hooks := o.hooks ++ [Hook.connect o.nextId] }

/-- Modelled from the spec: `stopPluginIfNeeded` — idempotent
disconnect-and-destroy; fires the disconnect/deactivate hook of the live
instance and destroys it. -/

def stopPluginIfNeeded (o : OwnerPluginState) : OwnerPluginState :=
  match o.live with
  | none => o
  | some i =>
    { o with live := none, hooks := o.hooks ++ [Hook.disconnect i] }

/-- Start/stop requests issued against one (owner, plugin) pair. -/
inductive LifecycleOp where
  | start
  | stop
  deriving DecidableEq, Repr

/-- Run a sequence of lifecycle requests. -/
def runOps (ops : List LifecycleOp) (o : OwnerPluginState) :
    OwnerPluginState :=
  match ops with
  | [] => o
  | op :: rest =>
    runOps rest
      (match op with
       | .start => startPluginIfNeeded o
       | .stop => stopPluginIfNeeded o)

/-- Scan a hook list checking strict connect/disconnect alternation;
returns the expectation after the list (`true` = connect expected), or
`none` if the alternation is violated. -/
def altScan (expectConnect : Bool) (hs : List Hook) : Option Bool :=
  match expectConnect, hs with
  | e, [] => some e
  | true, Hook.connect _ :: rest => altScan false rest
  | false, Hook.disconnect _ :: rest => altScan true rest
  | _, _ => none

/-- The hook list alternates connect/disconnect starting as expected. -/
def alternates (expectConnect : Bool) (hs : List Hook) : Bool :=
  (altScan expectConnect hs).isSome

/-- Identity carried by a hook. -/
def hookId (h : Hook) : Nat :=
  match h with
  | .connect i => i
  | .disconnect i => i

/-- Invariant of the instance state machine: the hook history alternates
and ends in the expectation matching liveness, and all instance identities
ever used are below the freshness counter. -/
def OwnerInv (o : OwnerPluginState) : Prop :=
  altScan true o.hooks = some o.live.isNone
  ∧ (∀ i, o.live = some i → i < o.nextId)
  ∧ (∀ h, h ∈ o.hooks → hookId h < o.nextId)

/-- Store updates observed by the plugin container. -/
inductive DLEvent where
  | selectPlugin (plugin : String) (payload : Option String)
  | unrelatedUpdate
  deriving DecidableEq, Repr

/-- Modelled from the spec: the deep-link delivery state of the plugin
container (`PluginContainer.tsx`, not part of this excerpt).  Per §4.7 a
payload is delivered exactly once per distinct (plugin-selection-event,
payload) pair; `lastDeepLink` is the payload last delivered during the
current continuous selection, and it resets when the selection moves to a
different plugin. -/
structure DeepLinkState where
  selected : Option String
  lastDeepLink : Option String
  deliveries : List (String × String)
  deriving DecidableEq, Repr

/-- The state before any selection. -/
def initialDeepLinkState : DeepLinkState :=
  { selected := none, lastDeepLink := none, deliveries := [] }

/-- Modelled from the spec: one store update as observed by the deep-link
delivery logic.  An unrelated update re-renders without touching the
selection and delivers nothing; a selection delivers its payload unless the
same payload was already delivered during a continuous selection of the
same plugin. -/
def dlStep (s : DeepLinkState) (e : DLEvent) : DeepLinkState :=
  match e with
  | .unrelatedUpdate => s
  | .selectPlugin p none =>
    { selected := some p,
      lastDeepLink := if s.selected = some p then s.lastDeepLink else none,
      deliveries := s.deliveries }
  | .selectPlugin p (some pay) =>
    if (if s.selected = some p then s.lastDeepLink else none) = some pay then
      { selected := some p, lastDeepLink := s.lastDeepLink,
        deliveries := s.deliveries }
    else
      { selected := some p, lastDeepLink := some pay,
        deliveries := s.deliveries ++ [(p, pay)] }

/-- Run a sequence of store updates from the initial state. -/
def runDL (events : List DLEvent) : DeepLinkState :=
  events.foldl dlStep initialDeepLinkState

/-- Payloads delivered to one plugin's deep-link handler, in order. -/
def deliveriesTo (p : String) (s : DeepLinkState) : List String :=
  s.deliveries.filterMap (fun d => if d.1 = p then some d.2 else none)

/-- The scenario of the deep-link test: select with "universe!", reselect
with the same payload, an unrelated update, select with "london!", select
another plugin, reselect with "london!". -/
def dlScenario : List DLEvent :=
  [DLEvent.selectPlugin "TestPlugin" (some "universe!"),
   DLEvent.selectPlugin "TestPlugin" (some "universe!"),
   DLEvent.unrelatedUpdate,
   DLEvent.selectPlugin "TestPlugin" (some "london!"),
   DLEvent.selectPlugin "Logs" (some "london!"),
   DLEvent.selectPlugin "TestPlugin" (some "london!")]

/-- Running `pure`. -/
theorem M_run_pure {α : Type} (a : α) (s : St) :
    (pure a : M α) s = (Except.ok a, s) := rfl

/-- Running `bind`: the second computation runs only on success, but state
changes made before a throw persist (JS semantics). -/
theorem M_run_bind {α β : Type} (m : M α) (f : α → M β) (s : St) :
    (m >>= f) s =
      match m s with
      | (Except.ok a, s') => f a s'
      | (Except.error e, s') => (Except.error e, s') := rfl

/-- Characterization of `startPlugin`: it only appends to the trace, and
the init signal is sent exactly under `bgGuard` (when the preceding call
did not throw). -/
theorem startPlugin_char (env : Env) (client : Client)
    (plugin : PluginDefinition) (force : Bool) (s : St) :
    startPlugin env client plugin force s =
      (startPluginRes env client plugin force,
       { s with trace := s.trace ++ startPluginTrace env client plugin force }) := by
  simp only [startPlugin, startPluginRes, startPluginTrace, bgGuard,
    M_run_bind, extCall]
  cases h1 : env.fails (ExtCall.startPluginIfNeeded client.id plugin.id) <;>
    cases h3 : env.fails (ExtCall.initPlugin client.id plugin.id) <;>
      simp [h1, h3, M_run_pure, extCall] <;>
        (try (split <;> simp [M_run_pure, extCall, h1, h3]))

/-- Characterization of `stopPlugin`: it only appends to the trace, the
deinit signal is sent exactly under `bgGuard` and comes before the
`stopPluginIfNeeded` call. -/
theorem stopPlugin_char (env : Env) (client : Client) (pluginId : String)
    (force : Bool) (s : St) :
    stopPlugin env client pluginId force s =
      (stopPluginRes env client pluginId force,
       { s with trace := s.trace ++ stopPluginTrace env client pluginId force }) := by
  simp only [stopPlugin, stopPluginRes, stopPluginTrace, bgGuard,
    M_run_bind, extCall]
  cases hd : env.fails (ExtCall.deinitPlugin client.id pluginId) <;>
    cases hs : env.fails (ExtCall.stopPluginIfNeeded client.id pluginId) <;>
      simp [hd, hs, M_run_pure, extCall] <;>
        (try (split <;> simp [M_run_bind, M_run_pure, extCall, hd, hs]))

/-- Characterization of `unloadPluginModule`. -/
theorem unloadPluginModule_char (env : Env) (plugin : PluginDetails) (s : St) :
    unloadPluginModule env plugin s =
      (unloadPluginModuleRes env plugin,
       { s with trace := s.trace ++ unloadPluginModuleTrace plugin }) := by
  simp only [unloadPluginModule, unloadPluginModuleRes,
    unloadPluginModuleTrace, extCall]
  cases hb : plugin.isBundled <;>
    cases hf : env.fails (ExtCall.unloadModule plugin.entry) <;>
      simp [hb, hf, M_run_pure, extCall]

/-- The trace of a dispatch is recorded after the existing trace. -/
theorem applyAction_trace (s : St) (a : Action) :
    (applyAction s a).trace = s.trace ++ [Event.dispatch a] := rfl

/-- The reducer never touches the trace. -/
theorem reduce_trace (s : St) (a : Action) : (reduce s a).trace = s.trace := by
  cases a <;> simp [reduce] <;> (try split) <;> rfl

/-- The reducer never touches the client or device lists. -/
theorem reduce_clients (s : St) (a : Action) :
    (reduce s a).clients = s.clients ∧ (reduce s a).devices = s.devices := by
  cases a <;> simp [reduce] <;> (try split) <;> simp

/-- Actions without a registry effect leave everything but the trace
unchanged. -/
theorem applyAction_clearMessageQueue (s : St) (k : String) :
    applyAction s (.clearMessageQueue k) =
      { s with trace := s.trace ++ [Event.dispatch (.clearMessageQueue k)] } := rfl

/-- Characterization of `forEachM` for bodies whose only state effect is
appending a fixed per-element trace. -/
theorem forEachM_char {α : Type} (f : α → M Unit) (re : α → Except Unit Unit)
    (tr : α → List Event)
    (h : ∀ a s, f a s = (re a, { s with trace := s.trace ++ tr a })) :
    ∀ (xs : List α) (s : St),
      forEachM xs f s =
        (seqRes re xs, { s with trace := s.trace ++ seqTrace re tr xs }) := by
  intro xs
  induction xs with
  | nil => intro s; simp [forEachM, seqRes, seqTrace, M_run_pure]
  | cons x rest ih =>
    intro s
    simp only [forEachM, seqRes, seqTrace, M_run_bind, h x s]
    cases hre : re x with
    | error e => simp [hre]
    | ok a => simp [hre, ih]

/-- When no per-element action throws, the sequential run succeeds and the
trace is the concatenation of the per-element traces. -/
theorem seq_allOk {α : Type} (re : α → Except Unit Unit)
    (tr : α → List Event) (xs : List α)
    (h : ∀ a, a ∈ xs → re a = Except.ok ()) :
    seqRes re xs = Except.ok () ∧
      seqTrace re tr xs = xs.flatMap tr := by
  induction xs with
  | nil => simp [seqRes, seqTrace]
  | cons x rest ih =>
    have hx : re x = Except.ok () := h x (by simp)
    have hrest := ih (fun a ha => h a (by simp [ha]))
    simp [seqRes, seqTrace, hx, hrest]

/-- The source guard is the spec's condition: background plugin, and either
forced or not default-enabled. -/
theorem bgGuard_iff (client : Client) (pluginId : String) (force : Bool) :
    bgGuard client pluginId force = true ↔
      (pluginId ∈ client.backgroundPlugins
        ∧ (force = true ∨ pluginId ∉ defaultEnabledBackgroundPlugins)) := by
  simp [bgGuard]
  tauto

/-- Under a reliable environment `stopPlugin` succeeds. -/
theorem stopPluginRes_ok (env : Env) (c : Client) (pid : String) (force : Bool)
    (hrel : Env.reliable env) :
    stopPluginRes env c pid force = Except.ok true := by
  have hf : ∀ call, env.fails call = false := hrel
  simp [stopPluginRes, hf]

/-- Under a reliable environment `startPlugin` succeeds. -/
theorem startPluginRes_ok (env : Env) (c : Client) (plugin : PluginDefinition)
    (force : Bool) (hrel : Env.reliable env) :
    startPluginRes env c plugin force = Except.ok () := by
  have hf : ∀ call, env.fails call = false := hrel
  simp [startPluginRes, hf]

/-- C8: in the start/stop primitives, the explicit init (resp. deinit)
signal is sent to the client if and only if the plugin is a background
plugin and either the force flag is set or the plugin is not in the
default-enabled-background set; in `stopPlugin` the deinit signal comes
before the generic `stopPluginIfNeeded` call. -/
theorem startStop_background_signal_spec (env : Env) (client : Client)
    (plugin : PluginDefinition) (pluginId : String) (force : Bool) (s : St)
    (hrel : Env.reliable env) :
    ((startPlugin env client plugin force s).2.trace
        = s.trace ++ [Event.call (.startPluginIfNeeded client.id plugin.id)]
          ++ (if bgGuard client plugin.id force then
               [Event.call (.initPlugin client.id plugin.id)]
              else []))
  ∧ ((stopPlugin env client pluginId force s).2.trace
        = s.trace
          ++ (if bgGuard client pluginId force then
               [Event.call (.deinitPlugin client.id pluginId)]
              else [])
          ++ [Event.call (.stopPluginIfNeeded client.id pluginId)])
  ∧ (bgGuard client pluginId force = true ↔
      (pluginId ∈ client.backgroundPlugins
        ∧ (force = true ∨ pluginId ∉ defaultEnabledBackgroundPlugins)))
  ∧ (startPlugin env client plugin force s).1 = Except.ok ()
  ∧ (stopPlugin env client pluginId force s).1 = Except.ok true := by
  have hf : ∀ call, env.fails call = false := hrel
  refine ⟨?_, ?_, bgGuard_iff client pluginId force, ?_, ?_⟩
  · rw [startPlugin_char]
    simp [startPluginTrace, hf]
  · rw [stopPlugin_char]
    simp [stopPluginTrace, hf]
  · rw [startPlugin_char]
    simp [startPluginRes_ok env client plugin force hrel]
  · rw [stopPlugin_char]
    simp [stopPluginRes_ok env client pluginId force hrel]

/-- Characterization of `extCall`. -/
theorem extCall_char (env : Env) (c : ExtCall) (s : St) :
    extCall env c s =
      (extRes env c, { s with trace := s.trace ++ [Event.call c] }) := by
  simp only [extCall, extRes]
  cases env.fails c <;> simp

/-- Characterization of the stop-loop body. -/
theorem stopBody_char (env : Env) (pid : String) (c : Client) (s : St) :
    (do
      let _ ← stopPlugin env c pid
      pure () : M Unit) s
    = (stopBodyRes env c pid,
       { s with trace := s.trace ++ stopPluginTrace env c pid false }) := by
  simp only [M_run_bind, stopPlugin_char, stopBodyRes]
  cases stopPluginRes env c pid false <;> simp [M_run_pure]

/-- Dispatching `setPluginEnabled` leaves the registered client-plugin
versions unchanged. -/
theorem applyAction_enable_clientPlugins (s : St) (p a : String) :
    (applyAction s (.setPluginEnabled p a)).clientPlugins = s.clientPlugins :=
  rfl

/-- `updateClientEnabledState` does not change the client list. -/
theorem updateClientEnabledState_clients (plugin : PluginDefinition)
    (enable : Bool) (s : St) :
    (updateClientEnabledState plugin enable s).clients = s.clients := by
  simp only [updateClientEnabledState]
  split <;> rfl

/-- `updateClientEnabledState` does not change the registered client-plugin
versions. -/
theorem updateClientEnabledState_clientPlugins (plugin : PluginDefinition)
    (enable : Bool) (s : St) :
    (updateClientEnabledState plugin enable s).clientPlugins
      = s.clientPlugins := by
  simp only [updateClientEnabledState]
  split <;> rfl

/-- Pointwise run lemma for a `getSt` bind. -/
theorem M_run_getSt_bind {α : Type} (f : St → M α) (s : St) :
    (getSt >>= f) s = f s s := rfl

/-- Pointwise run lemma for a `pure` bind. -/
theorem M_run_pure_bind {α β : Type} (a : α) (f : α → M β) (s : St) :
    ((pure a : M α) >>= f) s = f a s := rfl

/-- Pointwise run lemma for a dispatch bind. -/
theorem M_run_dispatch_bind {α : Type} (a : Action) (f : Unit → M α) (s : St) :
    (dispatchM a >>= f) s = f () (applyAction s a) := rfl

/-- Pointwise run lemma for a conditional. -/
theorem M_run_ite {α : Type} (c : Prop) [Decidable c] (m m' : M α) (s : St) :
    (if c then m else m') s = if c then m s else m' s := by
  split <;> rfl

/-- Pointwise run lemma for a conditional bind. -/
theorem M_run_ite_bind {α β : Type} (c : Prop) [Decidable c] (m m' : M α)
    (f : α → M β) (s : St) :
    ((if c then m else m') >>= f) s
      = if c then (m >>= f) s else (m' >>= f) s := by
  split <;> rfl

/-- Characterization of the tail of `updateClientPlugin` (stop pass, start
pass, `pluginLoaded` dispatch, unload of the previous version), for an
arbitrary affected-client list, previous version and start state. -/
theorem ucpTail_char (env : Env) (plugin : PluginDefinition)
    (aff : List Client) (prev : Option PluginDefinition) (s₁ : St) :
    (do
      forEachM aff (fun client => do
        let _ ← stopPlugin env client plugin.id
        pure ())
      forEachM aff (fun client => startPlugin env client plugin true)
      dispatchM (.pluginLoaded plugin)
      match prev with
      | some prevp => unloadPluginModule env prevp.details
      | none => pure () : M Unit) s₁
    = (match seqRes (fun c => stopBodyRes env c plugin.id) aff with
       | .error e =>
         (.error e,
          { s₁ with trace := (s₁.trace
              ++ seqTrace (fun c => stopBodyRes env c plugin.id)
                  (fun c => stopPluginTrace env c plugin.id false) aff) })
       | .ok _ =>
         match seqRes (fun c => startPluginRes env c plugin true) aff with
         | .error e =>
           (.error e,
            { s₁ with trace := (s₁.trace
                ++ seqTrace (fun c => stopBodyRes env c plugin.id)
                    (fun c => stopPluginTrace env c plugin.id false) aff
                ++ seqTrace (fun c => startPluginRes env c plugin true)
                    (fun c => startPluginTrace env c plugin true) aff) })
         | .ok _ =>
           let s₂ := applyAction
             { s₁ with trace := (s₁.trace
                 ++ seqTrace (fun c => stopBodyRes env c plugin.id)
                     (fun c => stopPluginTrace env c plugin.id false) aff
                 ++ seqTrace (fun c => startPluginRes env c plugin true)
                     (fun c => startPluginTrace env c plugin true) aff) }
             (.pluginLoaded plugin)
           match prev with
           | none => (.ok (), s₂)
           | some prevp =>
             (unloadPluginModuleRes env prevp.details,
              { s₂ with trace := (s₂.trace
                  ++ unloadPluginModuleTrace prevp.details) })) := by
  have hstops := forEachM_char
    (fun client => do
      let _ ← stopPlugin env client plugin.id
      pure ())
    (fun c => stopBodyRes env c plugin.id)
    (fun c => stopPluginTrace env c plugin.id false)
    (fun a st => stopBody_char env plugin.id a st)
  have hstarts := forEachM_char
    (fun client => startPlugin env client plugin true)
    (fun c => startPluginRes env c plugin true)
    (fun c => startPluginTrace env c plugin true)
    (fun a st => startPlugin_char env a plugin true st)
  simp only [M_run_bind, hstops, hstarts]
  cases hsr : seqRes (fun c => stopBodyRes env c plugin.id) aff with
  | error e => simp
  | ok u =>
    cases hst : seqRes (fun c => startPluginRes env c plugin true) aff with
    | error e => simp
    | ok u' =>
      cases prev with
      | none =>
        simp [dispatchM, M_run_pure, applyAction_trace, List.append_assoc]
      | some prevp =>
        simp [dispatchM, unloadPluginModule_char, applyAction_trace,
          List.append_assoc]

/-- Full characterization of `updateClientPlugin`: the optional enable
dispatch happens first, then the complete stop pass, then the complete
start pass, then the `pluginLoaded` dispatch, then the unload of the
previous version. -/
theorem updateClientPlugin_char (env : Env) (plugin : PluginDefinition)
    (enable : Bool) (s : St) :
    updateClientPlugin env plugin enable s =
      (let s₁ := updateClientEnabledState plugin enable s
       match ucpStopsRes env plugin enable s with
       | .error e =>
         (.error e,
          { s₁ with trace := (s₁.trace ++ ucpStopsTrace env plugin enable s) })
       | .ok _ =>
         match ucpStartsRes env plugin enable s with
         | .error e =>
           (.error e,
            { s₁ with trace := (s₁.trace ++ ucpStopsTrace env plugin enable s
                ++ ucpStartsTrace env plugin enable s) })
         | .ok _ =>
           let s₂ := applyAction
             { s₁ with trace := (s₁.trace ++ ucpStopsTrace env plugin enable s
                 ++ ucpStartsTrace env plugin enable s) }
             (.pluginLoaded plugin)
           match lookupA s.clientPlugins plugin.id with
           | none => (.ok (), s₂)
           | some prev =>
             (unloadPluginModuleRes env prev.details,
              { s₂ with trace := (s₂.trace
                  ++ unloadPluginModuleTrace prev.details) })) := by
  cases henable : enable <;> cases ht : truthy (getSelectedAppName s) <;>
    simp only [updateClientPlugin, M_run_getSt_bind, M_run_pure_bind,
      M_run_dispatch_bind, M_run_ite_bind, ht, Bool.false_eq_true, if_false,
      if_true, ite_false, ite_true, eq_self_iff_true,
      applyAction_enable_clientPlugins] <;>
    rw [ucpTail_char] <;>
    simp only [ucpStopsRes, ucpStopsTrace, ucpStartsRes, ucpStartsTrace,
      updateClientAffected, updateClientEnabledState, ht, henable,
      Bool.false_and, Bool.true_and, Bool.false_eq_true, if_false, if_true,
      ite_false, ite_true]

/-- Characterization of the tail of `updateDevicePlugin` for an arbitrary
supporting-device list and start state. -/
theorem udpTail_char (env : Env) (plugin : PluginDefinition)
    (devs : List Device) (s₁ : St) :
    (do
      forEachM devs
        (fun d => extCall env (.unloadDevicePlugin d.serial plugin.id))
      let previousVersion := lookupA (← getSt).devicePlugins plugin.id
      match previousVersion with
      | some prev => unloadPluginModule env prev.details
      | none => pure ()
      dispatchM (.pluginLoaded plugin)
      forEachM devs
        (fun d => extCall env (.loadDevicePlugin d.serial plugin.id)) :
      M Unit) s₁
    = udpAfter env plugin devs (lookupA s₁.devicePlugins plugin.id) s₁ := by
  have hunloads := forEachM_char
    (fun (d : Device) => extCall env (.unloadDevicePlugin d.serial plugin.id))
    (fun (d : Device) => extRes env (.unloadDevicePlugin d.serial plugin.id))
    (fun (d : Device) => [Event.call (.unloadDevicePlugin d.serial plugin.id)])
    (fun (a : Device) (st : St) =>
      extCall_char env (.unloadDevicePlugin a.serial plugin.id) st)
  have hloads := forEachM_char
    (fun (d : Device) => extCall env (.loadDevicePlugin d.serial plugin.id))
    (fun (d : Device) => extRes env (.loadDevicePlugin d.serial plugin.id))
    (fun (d : Device) => [Event.call (.loadDevicePlugin d.serial plugin.id)])
    (fun (a : Device) (st : St) =>
      extCall_char env (.loadDevicePlugin a.serial plugin.id) st)
  simp only [M_run_bind, M_run_getSt_bind, hunloads, hloads, udpAfter,
    udpUnloadsRes, udpUnloadsTrace, udpLoadsRes, udpLoadsTrace, udpModuleRes,
    udpModuleTrace]
  cases hur : seqRes
      (fun (d : Device) => extRes env (.unloadDevicePlugin d.serial plugin.id))
      devs with
  | error e => simp [hur]
  | ok u =>
    simp only [hur]
    cases hprev : lookupA s₁.devicePlugins plugin.id with
    | none =>
      simp [hprev, hloads, M_run_pure, M_run_bind, M_run_getSt_bind, getSt,
        dispatchM, applyAction_trace, List.append_assoc]
    | some prev =>
      cases hmod : unloadPluginModuleRes env prev.details with
      | error e =>
        simp [hprev, hmod, hloads, unloadPluginModule_char, M_run_bind,
          M_run_getSt_bind, getSt, List.append_assoc]
      | ok u2 =>
        simp [hprev, hmod, hloads, unloadPluginModule_char, M_run_bind,
          M_run_getSt_bind, getSt, dispatchM, applyAction_trace,
          List.append_assoc]

/-- Dispatching `setDevicePluginEnabled` leaves devices and registered
device-plugin versions unchanged. -/
theorem applyAction_deviceEnable_devices (s : St) (p : String) :
    (applyAction s (.setDevicePluginEnabled p)).devices = s.devices := rfl

/-- Dispatching `setDevicePluginEnabled` leaves the registered
device-plugin versions unchanged. -/
theorem applyAction_deviceEnable_devicePlugins (s : St) (p : String) :
    (applyAction s (.setDevicePluginEnabled p)).devicePlugins
      = s.devicePlugins := rfl

/-- Full characterization of `updateDevicePlugin`. -/
theorem updateDevicePlugin_char (env : Env) (plugin : PluginDefinition)
    (enable : Bool) (s : St) :
    updateDevicePlugin env plugin enable s =
      udpAfter env plugin
        (s.devices.filter (fun d => plugin.id ∈ d.supportedPlugins))
        (lookupA s.devicePlugins plugin.id)
        (updateDeviceEnabledState plugin enable s) := by
  cases enable <;>
    simp only [updateDevicePlugin, updateDeviceEnabledState,
      M_run_getSt_bind, M_run_pure_bind, M_run_dispatch_bind, M_run_ite_bind,
      Bool.false_eq_true, if_false, if_true, ite_false, ite_true,
      applyAction_deviceEnable_devices, applyAction_deviceEnable_devicePlugins] <;>
    (rw [udpTail_char] <;>
      simp [applyAction_deviceEnable_devicePlugins])

/-- Characterization of the disable-loop body of `switchClientPlugin`. -/
theorem scpStopBody_char (env : Env) (plugin : PluginDefinition) (c : Client)
    (s : St) :
    (do
      let _ ← stopPlugin env c plugin.id
      dispatchM (.clearMessageQueue (getPluginKey c.id plugin.id))) s
    = (stopBodyRes env c plugin.id,
       { s with trace := (s.trace ++ scpStopTrace env c plugin.id) }) := by
  simp only [M_run_bind, stopPlugin_char, stopBodyRes, scpStopTrace]
  cases stopPluginRes env c plugin.id false <;>
    simp [dispatchM, applyAction_clearMessageQueue, List.append_assoc]

/-- Characterization of a loop followed by a single dispatch. -/
theorem loopThenDispatch_char {α : Type} (f : α → M Unit)
    (re : α → Except Unit Unit) (tr : α → List Event)
    (h : ∀ a s, f a s = (re a, { s with trace := s.trace ++ tr a }))
    (action : Action) (xs : List α) (s : St) :
    ((forEachM xs f) >>= fun _ => dispatchM action) s
      = (match seqRes re xs with
         | .error e =>
           (.error e, { s with trace := (s.trace ++ seqTrace re tr xs) })
         | .ok _ =>
           (.ok (),
            applyAction { s with trace := (s.trace ++ seqTrace re tr xs) }
              action)) := by
  simp only [M_run_bind, forEachM_char f re tr h]
  cases seqRes re xs <;> simp [dispatchM]

/-- Full characterization of `switchClientPlugin`: a no-op when no app
resolves, otherwise a toggle keyed off the current enabled set. -/
theorem switchClientPlugin_char (env : Env) (plugin : PluginDefinition)
    (sel : Option String) (s : St) :
    switchClientPlugin env plugin sel s =
      (if truthy (resolveApp sel s) = false then (Except.ok (), s)
       else
         if plugin.id ∈ enabledFor s.enabledPlugins
             ((resolveApp sel s).getD "") then
           match seqRes (fun c => stopBodyRes env c plugin.id)
               (getClientsByAppName s.clients
                 ((resolveApp sel s).getD "")) with
           | .error e =>
             (.error e,
              { s with trace := (s.trace
                  ++ seqTrace (fun c => stopBodyRes env c plugin.id)
                      (fun c => scpStopTrace env c plugin.id)
                      (getClientsByAppName s.clients
                        ((resolveApp sel s).getD ""))) })
           | .ok _ =>
             (.ok (),
              applyAction
                { s with trace := (s.trace
                    ++ seqTrace (fun c => stopBodyRes env c plugin.id)
                        (fun c => scpStopTrace env c plugin.id)
                        (getClientsByAppName s.clients
                          ((resolveApp sel s).getD ""))) }
                (.setPluginDisabled plugin.id ((resolveApp sel s).getD "")))
         else
           match seqRes (fun c => startPluginRes env c plugin false)
               (getClientsByAppName s.clients
                 ((resolveApp sel s).getD "")) with
           | .error e =>
             (.error e,
              { s with trace := (s.trace
                  ++ seqTrace (fun c => startPluginRes env c plugin false)
                      (fun c => startPluginTrace env c plugin false)
                      (getClientsByAppName s.clients
                        ((resolveApp sel s).getD ""))) })
           | .ok _ =>
             (.ok (),
              applyAction
                { s with trace := (s.trace
                    ++ seqTrace (fun c => startPluginRes env c plugin false)
                        (fun c => startPluginTrace env c plugin false)
                        (getClientsByAppName s.clients
                          ((resolveApp sel s).getD ""))) }
                (.setPluginEnabled plugin.id
                  ((resolveApp sel s).getD "")))) := by
  have hbStop := fun (a : Client) (st : St) => scpStopBody_char env plugin a st
  have hbStart := fun (a : Client) (st : St) =>
    startPlugin_char env a plugin false st
  cases sel with
  | some a =>
    cases ht : truthy (some a) <;>
      simp only [switchClientPlugin, resolveApp, M_run_getSt_bind,
        M_run_pure_bind, M_run_ite, M_run_ite_bind, ht, Bool.not_false,
        Bool.not_true, Bool.false_eq_true, if_false, if_true, ite_false,
        ite_true, M_run_pure] <;>
      (try rfl) <;>
      (split <;>
        [rw [loopThenDispatch_char _ _ _ hbStop];
         rw [loopThenDispatch_char _ _ _ hbStart]] <;>
        simp)
  | none =>
    cases ht : truthy (getSelectedAppName s) <;>
      simp only [switchClientPlugin, resolveApp, M_run_getSt_bind,
        M_run_pure_bind, M_run_ite, M_run_ite_bind, ht, Bool.not_false,
        Bool.not_true, Bool.false_eq_true, if_false, if_true, ite_false,
        ite_true, M_run_pure] <;>
      (try rfl) <;>
      (split <;>
        [rw [loopThenDispatch_char _ _ _ hbStop];
         rw [loopThenDispatch_char _ _ _ hbStart]] <;>
        simp)

/-- Full characterization of `switchDevicePlugin`: a toggle keyed off the
global enabled device-plugin set. -/
theorem switchDevicePlugin_char (env : Env) (plugin : PluginDefinition)
    (s : St) :
    switchDevicePlugin env plugin s =
      (if plugin.id ∈ s.enabledDevicePlugins then
         match udpUnloadsRes env plugin
             (s.devices.filter (fun d => plugin.id ∈ d.supportedPlugins)) with
         | .error e =>
           (.error e,
            { s with trace := (s.trace ++ udpUnloadsTrace env plugin
                (s.devices.filter
                  (fun d => plugin.id ∈ d.supportedPlugins))) })
         | .ok _ =>
           (.ok (),
            applyAction
              { s with trace := (s.trace ++ udpUnloadsTrace env plugin
                  (s.devices.filter
                    (fun d => plugin.id ∈ d.supportedPlugins))) }
              (.setDevicePluginDisabled plugin.id))
       else
         match udpLoadsRes env plugin
             (s.devices.filter (fun d => plugin.id ∈ d.supportedPlugins)) with
         | .error e =>
           (.error e,
            { s with trace := (s.trace ++ udpLoadsTrace env plugin
                (s.devices.filter
                  (fun d => plugin.id ∈ d.supportedPlugins))) })
         | .ok _ =>
           (.ok (),
            applyAction
              { s with trace := (s.trace ++ udpLoadsTrace env plugin
                  (s.devices.filter
                    (fun d => plugin.id ∈ d.supportedPlugins))) }
              (.setDevicePluginEnabled plugin.id))) := by
  have hbU := fun (a : Device) (st : St) =>
    extCall_char env (.unloadDevicePlugin a.serial plugin.id) st
  have hbL := fun (a : Device) (st : St) =>
    extCall_char env (.loadDevicePlugin a.serial plugin.id) st
  simp only [switchDevicePlugin, M_run_getSt_bind, M_run_ite, M_run_ite_bind]
  split <;>
    [rw [loopThenDispatch_char _ _ _ hbU];
     rw [loopThenDispatch_char _ _ _ hbL]] <;>
    simp [udpUnloadsRes, udpUnloadsTrace, udpLoadsRes, udpLoadsTrace]

/-- Full characterization of `uninstallPlugin`: stop on every client,
conditionally unload the module, dispatch `pluginUninstalled`; all failures
are swallowed after logging and a user notification. -/
theorem uninstallPlugin_char (env : Env) (plugin : PluginDefinition)
    (s : St) :
    uninstallPlugin env plugin s =
      (let stopsTr := seqTrace (fun c => stopBodyRes env c plugin.id)
          (fun c => stopPluginTrace env c plugin.id false) s.clients
       let catchTr := [Event.logError ("Failed to uninstall plugin "
             ++ plugin.details.title ++ " v" ++ plugin.details.version),
           Event.showErrorNotification ("Failed to uninstall plugin \x22"
             ++ plugin.details.title ++ "\x22 v" ++ plugin.details.version)]
       match seqRes (fun c => stopBodyRes env c plugin.id) s.clients with
       | .error _ =>
         (.ok (), { s with trace := (s.trace ++ stopsTr ++ catchTr) })
       | .ok _ =>
         if plugin.details.isBundled then
           (.ok (),
            applyAction { s with trace := (s.trace ++ stopsTr) }
              (.pluginUninstalled plugin.details))
         else
           match unloadPluginModuleRes env plugin.details with
           | .error _ =>
             (.ok (), { s with trace := (s.trace ++ stopsTr
                 ++ unloadPluginModuleTrace plugin.details ++ catchTr) })
           | .ok _ =>
             (.ok (),
              applyAction
                { s with trace := (s.trace ++ stopsTr
                    ++ unloadPluginModuleTrace plugin.details) }
                (.pluginUninstalled plugin.details))) := by
  have hstops := forEachM_char
    (fun client => do
      let _ ← stopPlugin env client plugin.id
      pure ())
    (fun c => stopBodyRes env c plugin.id)
    (fun c => stopPluginTrace env c plugin.id false)
    (fun a st => stopBody_char env plugin.id a st)
  simp only [uninstallPlugin, tryCatchM, M_run_bind, M_run_getSt_bind, getSt,
    hstops]
  cases hsr : seqRes (fun c => stopBodyRes env c plugin.id) s.clients with
  | error e =>
    simp [hsr, M_run_bind, getSt, logErrorM, showErrorNotificationM,
      List.append_assoc]
  | ok u =>
    cases hb : plugin.details.isBundled <;>
      simp only [hsr, hb, Bool.not_false, Bool.not_true, Bool.false_eq_true,
        if_false, if_true, ite_false, ite_true, M_run_bind, M_run_pure,
        M_run_pure_bind, unloadPluginModule_char]
    · cases hm : unloadPluginModuleRes env plugin.details with
      | error e =>
        simp [hm, M_run_bind, logErrorM, showErrorNotificationM,
          List.append_assoc]
      | ok u2 =>
        simp [hm, M_run_bind, dispatchM, applyAction_trace,
          List.append_assoc]
    · simp [dispatchM, applyAction_trace, List.append_assoc]

/-- A `seqTrace` whose per-element traces contain no unload entry
contributes no unload entry. -/
theorem unloadEvents_seqTrace {α : Type} (re : α → Except Unit Unit)
    (tr : α → List Event) (xs : List α)
    (h : ∀ a, unloadEvents (tr a) = []) :
    unloadEvents (seqTrace re tr xs) = [] := by
  induction xs with
  | nil => simp [seqTrace, unloadEvents]
  | cons x rest ih =>
    simp only [seqTrace]
    cases re x with
    | error e => exact h x
    | ok u =>
      have hx := h x
      simp only [unloadEvents, List.filterMap_append, List.append_eq_nil]
        at hx ih ⊢
      exact ⟨hx, ih⟩

/-- Traces of the stop primitive contain no unload entry. -/
theorem unloadEvents_stopPluginTrace (env : Env) (c : Client) (pid : String)
    (force : Bool) : unloadEvents (stopPluginTrace env c pid force) = [] := by
  simp only [stopPluginTrace, unloadEvents]
  split <;> split <;> simp [unloadOf]

/-- Traces of the start primitive contain no unload entry. -/
theorem unloadEvents_startPluginTrace (env : Env) (c : Client)
    (plugin : PluginDefinition) (force : Bool) :
    unloadEvents (startPluginTrace env c plugin force) = [] := by
  simp only [startPluginTrace, unloadEvents]
  split <;> simp [unloadOf]

/-- Traces of the disable-loop body contain no unload entry. -/
theorem unloadEvents_scpStopTrace (env : Env) (c : Client) (pid : String) :
    unloadEvents (scpStopTrace env c pid) = [] := by
  have h := unloadEvents_stopPluginTrace env c pid false
  simp only [scpStopTrace, unloadEvents, List.filterMap_append] at h ⊢
  rw [h]
  cases stopPluginRes env c pid false <;> simp [unloadOf]

/-- Unload entries distribute over trace concatenation. -/
theorem unloadEvents_append (a b : List Event) :
    unloadEvents (a ++ b) = unloadEvents a ++ unloadEvents b := by
  simp [unloadEvents, List.filterMap_append]

/-- Events that are not `unloadModule` calls contribute no unload entry. -/
theorem unloadEvents_cons_none (e : Event) (t : List Event)
    (h : unloadOf e = none) : unloadEvents (e :: t) = unloadEvents t := by
  simp [unloadEvents, List.filterMap_cons, h]

/-- The empty trace has no unload entries. -/
theorem unloadEvents_nil : unloadEvents [] = [] := rfl

/-- The stop pass of `updateClientPlugin` has no unload entries. -/
theorem unloadEvents_ucpStopsTrace (env : Env) (plugin : PluginDefinition)
    (enable : Bool) (s : St) :
    unloadEvents (ucpStopsTrace env plugin enable s) = [] :=
  unloadEvents_seqTrace _ _ _
    (fun a => unloadEvents_stopPluginTrace env a plugin.id false)

/-- The start pass of `updateClientPlugin` has no unload entries. -/
theorem unloadEvents_ucpStartsTrace (env : Env) (plugin : PluginDefinition)
    (enable : Bool) (s : St) :
    unloadEvents (ucpStartsTrace env plugin enable s) = [] :=
  unloadEvents_seqTrace _ _ _
    (fun a => unloadEvents_startPluginTrace env a plugin true)

/-- The device-unload pass has no module-unload entries. -/
theorem unloadEvents_udpUnloadsTrace (env : Env) (plugin : PluginDefinition)
    (devs : List Device) :
    unloadEvents (udpUnloadsTrace env plugin devs) = [] :=
  unloadEvents_seqTrace _ _ _ (fun a => rfl)

/-- The device-load pass has no module-unload entries. -/
theorem unloadEvents_udpLoadsTrace (env : Env) (plugin : PluginDefinition)
    (devs : List Device) :
    unloadEvents (udpLoadsTrace env plugin devs) = [] :=
  unloadEvents_seqTrace _ _ _ (fun a => rfl)

/-- The optional enable dispatch adds no unload entries. -/
theorem unloadEvents_ucesTrace (plugin : PluginDefinition) (enable : Bool)
    (s : St) :
    unloadEvents (updateClientEnabledState plugin enable s).trace
      = unloadEvents s.trace := by
  simp only [updateClientEnabledState]
  split
  · simp [applyAction_trace, unloadEvents_append, unloadEvents_cons_none,
      unloadOf, unloadEvents_nil]
  · rfl

/-- The optional device enable dispatch adds no unload entries. -/
theorem unloadEvents_udesTrace (plugin : PluginDefinition) (enable : Bool)
    (s : St) :
    unloadEvents (updateDeviceEnabledState plugin enable s).trace
      = unloadEvents s.trace := by
  simp only [updateDeviceEnabledState]
  split
  · simp [applyAction_trace, unloadEvents_append, unloadEvents_cons_none,
      unloadOf, unloadEvents_nil]
  · rfl

/-- C7: for every plugin whose details have `isBundled` set, `unloadModule`
is never invoked on its entry path, in any code path: the unload helper is
a no-op on bundled details, uninstalling a bundled plugin emits no unload
call, and neither the client nor the device update path unloads a bundled
previous version. -/
theorem bundled_never_unloaded (env : Env) (plugin : PluginDefinition)
    (prev : PluginDefinition) (enable : Bool) (s : St)
    (hb : plugin.details.isBundled = true)
    (hbp : prev.details.isBundled = true) :
    unloadPluginModule env plugin.details s = (Except.ok (), s)
  ∧ unloadEvents ((uninstallPlugin env plugin s).2.trace)
      = unloadEvents s.trace
  ∧ (lookupA s.clientPlugins plugin.id = some prev →
      unloadEvents ((updateClientPlugin env plugin enable s).2.trace)
        = unloadEvents s.trace)
  ∧ (lookupA s.devicePlugins plugin.id = some prev →
      unloadEvents ((updateDevicePlugin env plugin enable s).2.trace)
        = unloadEvents s.trace) := by
  have hstopsU : unloadEvents (seqTrace (fun c => stopBodyRes env c plugin.id)
      (fun c => stopPluginTrace env c plugin.id false) s.clients) = [] :=
    unloadEvents_seqTrace _ _ _
      (fun a => unloadEvents_stopPluginTrace env a plugin.id false)
  refine ⟨?_, ?_, ?_, ?_⟩
  · rw [unloadPluginModule_char]
    simp [unloadPluginModuleRes, unloadPluginModuleTrace, hb]
  · rw [uninstallPlugin_char]
    cases hsr : seqRes (fun c => stopBodyRes env c plugin.id) s.clients with
    | error e =>
      simp [hsr, unloadEvents_append, hstopsU, unloadEvents_cons_none,
        unloadOf, unloadEvents_nil]
    | ok u =>
      simp [hsr, hb, applyAction_trace, unloadEvents_append, hstopsU,
        unloadEvents_cons_none, unloadOf, unloadEvents_nil]
  · intro hprev
    rw [updateClientPlugin_char]
    cases hsr : ucpStopsRes env plugin enable s with
    | error e =>
      simp [hsr, unloadEvents_append, unloadEvents_ucpStopsTrace,
        unloadEvents_ucesTrace]
    | ok u =>
      cases hst : ucpStartsRes env plugin enable s with
      | error e =>
        simp [hsr, hst, unloadEvents_append, unloadEvents_ucpStopsTrace,
          unloadEvents_ucpStartsTrace, unloadEvents_ucesTrace]
      | ok u2 =>
        simp [hsr, hst, hprev, applyAction_trace, unloadEvents_append,
          unloadEvents_ucpStopsTrace, unloadEvents_ucpStartsTrace,
          unloadEvents_ucesTrace, unloadEvents_cons_none, unloadOf,
          unloadEvents_nil, unloadPluginModuleTrace, hbp]
  · intro hprev
    rw [updateDevicePlugin_char]
    simp only [udpAfter, hprev]
    cases hur : udpUnloadsRes env plugin
        (s.devices.filter (fun d => plugin.id ∈ d.supportedPlugins)) with
    | error e =>
      simp [hur, unloadEvents_append, unloadEvents_udpUnloadsTrace,
        unloadEvents_udesTrace]
    | ok u =>
      have hmod : udpModuleRes env (some prev) = Except.ok () := by
        simp [udpModuleRes, unloadPluginModuleRes, hbp]
      simp [hur, hmod, applyAction_trace, unloadEvents_append,
        unloadEvents_udpUnloadsTrace, unloadEvents_udpLoadsTrace,
        unloadEvents_udesTrace, unloadEvents_cons_none, unloadOf,
        unloadEvents_nil, udpModuleTrace, unloadPluginModuleTrace, hbp]

/-- Witness for C7 at a concrete bundled plugin. -/
theorem bundled_never_unloaded_witness :
    unloadPluginModule envOk pluginB.details stPrev = (Except.ok (), stPrev)
  ∧ unloadEvents ((uninstallPlugin envOk pluginB stPrev).2.trace)
      = unloadEvents stPrev.trace
  ∧ (lookupA stPrev.clientPlugins pluginB.id = some pluginB →
      unloadEvents ((updateClientPlugin envOk pluginB false stPrev).2.trace)
        = unloadEvents stPrev.trace)
  ∧ (lookupA stPrev.devicePlugins pluginB.id = some pluginB →
      unloadEvents ((updateDevicePlugin envOk pluginB false stPrev).2.trace)
        = unloadEvents stPrev.trace) :=
  bundled_never_unloaded envOk pluginB pluginB false stPrev rfl rfl

/-- Characterization of the catch block of `loadPlugin`. -/
theorem loadCatch_char (payload : LoadPluginActionPayload) (s : St) :
    (do
      logErrorM ("Failed to load plugin " ++ payload.plugin.title ++ " v"
        ++ payload.plugin.version)
      if payload.notifyIfFailed then
        showErrorNotificationM ("Failed to load plugin \x22"
          ++ payload.plugin.title ++ "\x22 v" ++ payload.plugin.version) :
      M Unit) s
    = (Except.ok (),
       { s with trace := (s.trace ++ loadCatchTrace payload) }) := by
  cases hn : payload.notifyIfFailed <;>
    simp [M_run_bind, M_run_ite, M_run_pure, logErrorM,
      showErrorNotificationM, loadCatchTrace, hn, List.append_assoc]

/-- C9: `loadPlugin` never throws to its caller, and its catch block covers
not only module resolution but the entire delegated `updatePlugin` call:
any exception raised during the update of a successfully resolved plugin is
caught, logged, and surfaced as a failed-to-load notification when the
`notifyIfFailed` flag is set. -/
theorem loadPlugin_spec (env : Env) (payload : LoadPluginActionPayload)
    (plugin : PluginDefinition) (s : St) :
    (loadPlugin env payload s).1 = Except.ok ()
  ∧ (env.require payload.plugin = none →
      loadPlugin env payload s
        = (Except.ok (),
           { s with trace := (s.trace ++ loadCatchTrace payload) }))
  ∧ (env.require payload.plugin = some plugin →
      (updatePlugin env plugin payload.enable s).1 = Except.error () →
      loadPlugin env payload s
        = (Except.ok (),
           { (updatePlugin env plugin payload.enable s).2 with
               trace := ((updatePlugin env plugin payload.enable s).2.trace
                 ++ loadCatchTrace payload) }))
  ∧ (env.require payload.plugin = some plugin →
      (updatePlugin env plugin payload.enable s).1 = Except.ok () →
      loadPlugin env payload s = updatePlugin env plugin payload.enable s) := by
  refine ⟨?_, ?_, ?_, ?_⟩
  · simp only [loadPlugin, tryCatchM]
    cases hreq : env.require payload.plugin with
    | none => simp [loadCatch_char]
    | some p =>
      rcases hu : updatePlugin env p payload.enable s with ⟨r, s2⟩
      cases r <;> simp [hu, loadCatch_char]
  · intro hreq
    simp only [loadPlugin, tryCatchM, hreq]
    simp [loadCatch_char]
  · intro hreq hupd
    simp only [loadPlugin, tryCatchM, hreq]
    rcases hu : updatePlugin env plugin payload.enable s with ⟨r, s2⟩
    rw [hu] at hupd
    simp only at hupd
    subst hupd
    simp [loadCatch_char, hu]
  · intro hreq hupd
    simp only [loadPlugin, tryCatchM, hreq]
    rcases hu : updatePlugin env plugin payload.enable s with ⟨r, s2⟩
    rw [hu] at hupd
    simp only at hupd
    subst hupd
    simp [hu]

/-- Witness for C9: a handler throwing inside the delegated update is
swallowed and surfaced as a notification. -/
theorem loadPlugin_spec_witness :
    loadPlugin envFailDeinit payloadA stEnabled
      = (Except.ok (),
         { (updatePlugin envFailDeinit pluginA false stEnabled).2 with
             trace :=
               ((updatePlugin envFailDeinit pluginA false stEnabled).2.trace
                 ++ loadCatchTrace payloadA) }) :=
  (loadPlugin_spec envFailDeinit payloadA pluginA stEnabled).2.2.1 rfl rfl

/-- Trace of `stopPlugin` under a reliable environment. -/
theorem stopPluginTrace_reliable (env : Env) (c : Client) (pid : String)
    (force : Bool) (hrel : Env.reliable env) :
    stopPluginTrace env c pid force
      = (if bgGuard c pid force then [Event.call (.deinitPlugin c.id pid)]
         else [])
        ++ [Event.call (.stopPluginIfNeeded c.id pid)] := by
  have hf : ∀ call, env.fails call = false := hrel
  simp [stopPluginTrace, hf]

/-- Trace of `startPlugin` under a reliable environment. -/
theorem startPluginTrace_reliable (env : Env) (c : Client)
    (plugin : PluginDefinition) (force : Bool) (hrel : Env.reliable env) :
    startPluginTrace env c plugin force
      = [Event.call (.startPluginIfNeeded c.id plugin.id)]
        ++ (if bgGuard c plugin.id force then
             [Event.call (.initPlugin c.id plugin.id)]
            else []) := by
  have hf : ∀ call, env.fails call = false := hrel
  simp [startPluginTrace, hf]

/-- Stop targets distribute over concatenation. -/
theorem stopTargets_append (pid : String) (a b : List Event) :
    stopTargets pid (a ++ b) = stopTargets pid a ++ stopTargets pid b := by
  simp [stopTargets, List.filterMap_append]

/-- Start targets distribute over concatenation. -/
theorem startTargets_append (pid : String) (a b : List Event) :
    startTargets pid (a ++ b) = startTargets pid a ++ startTargets pid b := by
  simp [startTargets, List.filterMap_append]

/-- A reliable stop of one client's plugin stops exactly that client. -/
theorem stopTargets_stopPluginTrace (env : Env) (c : Client) (pid : String)
    (force : Bool) (hrel : Env.reliable env) :
    stopTargets pid (stopPluginTrace env c pid force) = [c.id] := by
  rw [stopPluginTrace_reliable env c pid force hrel]
  cases h : bgGuard c pid force <;> simp [h, stopTargets]

/-- A reliable start of one client's plugin starts exactly that client. -/
theorem startTargets_startPluginTrace (env : Env) (c : Client)
    (plugin : PluginDefinition) (force : Bool) (hrel : Env.reliable env) :
    startTargets plugin.id (startPluginTrace env c plugin force) = [c.id] := by
  rw [startPluginTrace_reliable env c plugin force hrel]
  cases h : bgGuard c plugin.id force <;> simp [h, startTargets]

/-- Per-element target lists concatenate to the per-client id list. -/
theorem filterMap_flatMap_ids {α : Type} (f : Event → Option String)
    (g : α → String) (tr : α → List Event) (xs : List α)
    (h : ∀ c, c ∈ xs → (tr c).filterMap f = [g c]) :
    (xs.flatMap tr).filterMap f = xs.map g := by
  induction xs with
  | nil => simp
  | cons x rest ih =>
    have hx := h x (by simp)
    have hrest := ih (fun c hc => h c (by simp [hc]))
    simp [List.flatMap_cons, List.filterMap_append, hx, hrest]

/-- `List.all` over a `seqTrace` whose pieces all satisfy the predicate. -/
theorem all_seqTrace {α : Type} (p : Event → Bool)
    (re : α → Except Unit Unit) (tr : α → List Event) (xs : List α)
    (h : ∀ a, (tr a).all p = true) :
    (seqTrace re tr xs).all p = true := by
  induction xs with
  | nil => simp [seqTrace]
  | cons x rest ih =>
    simp only [seqTrace]
    cases re x with
    | error e => exact h x
    | ok u =>
      have hx := h x
      simp only [List.all_append] at *
      simp [hx, ih]

/-- Stop traces contain no start-phase events. -/
theorem stopPluginTrace_no_start (env : Env) (c : Client) (pid : String)
    (force : Bool) :
    (stopPluginTrace env c pid force).all (fun e => !isStartEvent e)
      = true := by
  simp only [stopPluginTrace]
  split <;> split <;> simp [isStartEvent]

/-- Start traces contain no stop-phase events. -/
theorem startPluginTrace_no_stop (env : Env) (c : Client)
    (plugin : PluginDefinition) (force : Bool) :
    (startPluginTrace env c plugin force).all (fun e => !isStopEvent e)
      = true := by
  simp only [startPluginTrace]
  split <;> simp [isStopEvent]

/-- Module-unload traces contain no stop-phase events. -/
theorem unloadPluginModuleTrace_no_stop (d : PluginDetails) :
    (unloadPluginModuleTrace d).all (fun e => !isStopEvent e) = true := by
  simp only [unloadPluginModuleTrace]
  split <;> simp [isStopEvent]

/-- Trace of the optional enable dispatch of `updateClientPlugin`. -/
theorem ucesTrace_eq (plugin : PluginDefinition) (enable : Bool) (s : St) :
    (updateClientEnabledState plugin enable s).trace
      = s.trace
        ++ (if enable && truthy (getSelectedAppName s) then
             [Event.dispatch (.setPluginEnabled plugin.id
                ((getSelectedAppName s).getD ""))]
            else []) := by
  simp only [updateClientEnabledState]
  split <;> simp_all [applyAction_trace]

/-- C3: in `updateClientPlugin`, for the set of currently connected clients
that support the plugin and have it enabled for their app, every
`stopPlugin` call completes before any `startPlugin` call begins: the new
trace splits into a phase with no start-type events that stops exactly the
affected clients, followed by a phase with no stop-type events that starts
exactly the affected clients. -/
theorem updateClientPlugin_stops_before_starts (env : Env)
    (plugin : PluginDefinition) (enable : Bool) (s : St)
    (hrel : Env.reliable env) :
    ∃ t₁ t₂,
      (updateClientPlugin env plugin enable s).2.trace = s.trace ++ t₁ ++ t₂
      ∧ t₁.all (fun e => !isStartEvent e) = true
      ∧ t₂.all (fun e => !isStopEvent e) = true
      ∧ stopTargets plugin.id t₁
          = (updateClientAffected plugin enable s).map Client.id
      ∧ startTargets plugin.id t₂
          = (updateClientAffected plugin enable s).map Client.id := by
  have hf : ∀ call, env.fails call = false := hrel
  have hstopsOk : ∀ c, c ∈ updateClientAffected plugin enable s →
      (fun c => stopBodyRes env c plugin.id) c = Except.ok () := by
    intro c hc
    simp [stopBodyRes, stopPluginRes, hf]
  have hstartsOk : ∀ c, c ∈ updateClientAffected plugin enable s →
      (fun c => startPluginRes env c plugin true) c = Except.ok () := by
    intro c hc
    exact startPluginRes_ok env c plugin true hrel
  obtain ⟨hsrOk, hstTr⟩ := seq_allOk (fun c => stopBodyRes env c plugin.id)
    (fun c => stopPluginTrace env c plugin.id false)
    (updateClientAffected plugin enable s) hstopsOk
  obtain ⟨hsr2Ok, hstTr2⟩ := seq_allOk
    (fun c => startPluginRes env c plugin true)
    (fun c => startPluginTrace env c plugin true)
    (updateClientAffected plugin enable s) hstartsOk
  refine ⟨(if enable && truthy (getSelectedAppName s) then
        [Event.dispatch (.setPluginEnabled plugin.id
           ((getSelectedAppName s).getD ""))]
      else []) ++ ucpStopsTrace env plugin enable s,
    ucpStartsTrace env plugin enable s
      ++ [Event.dispatch (.pluginLoaded plugin)]
      ++ udpModuleTrace (lookupA s.clientPlugins plugin.id), ?_, ?_, ?_, ?_, ?_⟩
  · rw [updateClientPlugin_char]
    simp only [ucpStopsRes, ucpStartsRes]
    rw [hsrOk, hsr2Ok]
    cases hl : lookupA s.clientPlugins plugin.id <;>
      simp [applyAction_trace, ucesTrace_eq, udpModuleTrace,
        List.append_assoc]
  · rw [List.all_append]
    have hA : (if (enable && truthy (getSelectedAppName s) : Bool) then
        [Event.dispatch (.setPluginEnabled plugin.id
           ((getSelectedAppName s).getD ""))]
        else []).all (fun e => !isStartEvent e) = true := by
      split <;> rfl
    have hB := all_seqTrace (fun e => !isStartEvent e)
      (fun c => stopBodyRes env c plugin.id)
      (fun c => stopPluginTrace env c plugin.id false)
      (updateClientAffected plugin enable s)
      (fun a => stopPluginTrace_no_start env a plugin.id false)
    simp only [ucpStopsTrace]
    rw [hA, hB]
    rfl
  · rw [List.all_append, List.all_append]
    have hB := all_seqTrace (fun e => !isStopEvent e)
      (fun c => startPluginRes env c plugin true)
      (fun c => startPluginTrace env c plugin true)
      (updateClientAffected plugin enable s)
      (fun a => startPluginTrace_no_stop env a plugin true)
    have hD : ([Event.dispatch (.pluginLoaded plugin)]).all
        (fun e => !isStopEvent e) = true := rfl
    have hC : (udpModuleTrace (lookupA s.clientPlugins plugin.id)).all
        (fun e => !isStopEvent e) = true := by
      cases lookupA s.clientPlugins plugin.id with
      | none => rfl
      | some prev =>
        simp only [udpModuleTrace]
        exact unloadPluginModuleTrace_no_stop prev.details
    simp only [ucpStartsTrace]
    rw [hB, hD, hC]
    rfl
  · rw [stopTargets_append]
    have h1 : stopTargets plugin.id
        (if (enable && truthy (getSelectedAppName s) : Bool) then
          [Event.dispatch (.setPluginEnabled plugin.id
             ((getSelectedAppName s).getD ""))]
        else []) = [] := by
      split <;> simp [stopTargets]
    rw [h1]
    simp only [ucpStopsTrace, hstTr, List.nil_append]
    exact filterMap_flatMap_ids _ Client.id _ _
      (fun c hc => stopTargets_stopPluginTrace env c plugin.id false hrel)
  · rw [startTargets_append, startTargets_append]
    have h2 : startTargets plugin.id
        [Event.dispatch (.pluginLoaded plugin)] = [] := rfl
    have h3 : startTargets plugin.id
        (udpModuleTrace (lookupA s.clientPlugins plugin.id)) = [] := by
      cases hl : lookupA s.clientPlugins plugin.id <;>
        simp [udpModuleTrace, unloadPluginModuleTrace, startTargets] <;>
        split <;> simp [startTargets]
    rw [h2, h3]
    simp only [ucpStartsTrace, hstTr2, List.append_nil]
    exact filterMap_flatMap_ids _ Client.id _ _
      (fun c hc => startTargets_startPluginTrace env c plugin true hrel)

/-- Witness for C3 at a concrete enabled client. -/
theorem updateClientPlugin_stops_before_starts_witness :
    ∃ t₁ t₂,
      (updateClientPlugin envOk pluginA true stEnabled).2.trace
        = stEnabled.trace ++ t₁ ++ t₂
      ∧ t₁.all (fun e => !isStartEvent e) = true
      ∧ t₂.all (fun e => !isStopEvent e) = true
      ∧ stopTargets pluginA.id t₁
          = (updateClientAffected pluginA true stEnabled).map Client.id
      ∧ startTargets pluginA.id t₂
          = (updateClientAffected pluginA true stEnabled).map Client.id :=
  updateClientPlugin_stops_before_starts envOk pluginA true stEnabled
    (fun _ => rfl)

/-- Concatenation of singleton traces is a map. -/
theorem flatMap_single {α β : Type} (xs : List α) (f : α → β) :
    xs.flatMap (fun a => [f a]) = xs.map f := by
  induction xs <;> simp_all

/-- The module-unload step succeeds under a reliable environment. -/
theorem udpModuleRes_reliable (env : Env) (prev : Option PluginDefinition)
    (hrel : Env.reliable env) : udpModuleRes env prev = Except.ok () := by
  have hf : ∀ call, env.fails call = false := hrel
  cases prev with
  | none => rfl
  | some p =>
    simp only [udpModuleRes, unloadPluginModuleRes]
    split <;> simp [hf]

/-- Trace of the optional enable dispatch of `updateDevicePlugin`. -/
theorem udesTrace_eq (plugin : PluginDefinition) (enable : Bool) (s : St) :
    (updateDeviceEnabledState plugin enable s).trace
      = s.trace
        ++ (if enable then
             [Event.dispatch (.setDevicePluginEnabled plugin.id)]
            else []) := by
  cases enable <;> simp [updateDeviceEnabledState, applyAction_trace]

/-- C6: in `updateDevicePlugin`, the new trace is exactly: the optional
enable dispatch, then `unloadDevicePlugin` on every supporting device, then
the module swap (unload of the previous version if any and not bundled,
and the `pluginLoaded` registration), and only then `loadDevicePlugin` on
every supporting device — no device ever holds two versions'
instances concurrently. -/
theorem updateDevicePlugin_order_spec (env : Env)
    (plugin : PluginDefinition) (enable : Bool) (s : St)
    (hrel : Env.reliable env) :
    (updateDevicePlugin env plugin enable s).2.trace
      = s.trace
        ++ (if enable then
             [Event.dispatch (.setDevicePluginEnabled plugin.id)]
            else [])
        ++ (s.devices.filter (fun d => plugin.id ∈ d.supportedPlugins)).map
             (fun d => Event.call (.unloadDevicePlugin d.serial plugin.id))
        ++ udpModuleTrace (lookupA s.devicePlugins plugin.id)
        ++ [Event.dispatch (.pluginLoaded plugin)]
        ++ (s.devices.filter (fun d => plugin.id ∈ d.supportedPlugins)).map
             (fun d => Event.call (.loadDevicePlugin d.serial plugin.id))
  ∧ (updateDevicePlugin env plugin enable s).1 = Except.ok () := by
  have hf : ∀ call, env.fails call = false := hrel
  have hUOk : ∀ d, d ∈ s.devices.filter
      (fun d => plugin.id ∈ d.supportedPlugins) →
      (fun d => extRes env (.unloadDevicePlugin d.serial plugin.id)) d
        = Except.ok () := by
    intro d hd
    simp [extRes, hf]
  have hLOk : ∀ d, d ∈ s.devices.filter
      (fun d => plugin.id ∈ d.supportedPlugins) →
      (fun d => extRes env (.loadDevicePlugin d.serial plugin.id)) d
        = Except.ok () := by
    intro d hd
    simp [extRes, hf]
  obtain ⟨hu1, hu2⟩ := seq_allOk
    (fun d => extRes env (.unloadDevicePlugin d.serial plugin.id))
    (fun d => [Event.call (.unloadDevicePlugin d.serial plugin.id)])
    (s.devices.filter (fun d => plugin.id ∈ d.supportedPlugins)) hUOk
  obtain ⟨hl1, hl2⟩ := seq_allOk
    (fun d => extRes env (.loadDevicePlugin d.serial plugin.id))
    (fun d => [Event.call (.loadDevicePlugin d.serial plugin.id)])
    (s.devices.filter (fun d => plugin.id ∈ d.supportedPlugins)) hLOk
  have hmod := udpModuleRes_reliable env (lookupA s.devicePlugins plugin.id)
    hrel
  rw [updateDevicePlugin_char]
  simp only [udpAfter, udpUnloadsRes, udpUnloadsTrace, udpLoadsRes,
    udpLoadsTrace]
  rw [hu1, hmod]
  constructor
  · simp [hu2, hl2, flatMap_single, applyAction_trace, udesTrace_eq,
      List.append_assoc]
  · rw [hl1]

/-- Witness for C6 at a concrete supporting device. -/
theorem updateDevicePlugin_order_spec_witness :
    (updateDevicePlugin envOk pluginAd true stPrev).2.trace
      = stPrev.trace
        ++ (if true then
             [Event.dispatch (.setDevicePluginEnabled pluginAd.id)]
            else [])
        ++ (stPrev.devices.filter
              (fun d => pluginAd.id ∈ d.supportedPlugins)).map
             (fun d => Event.call (.unloadDevicePlugin d.serial pluginAd.id))
        ++ udpModuleTrace (lookupA stPrev.devicePlugins pluginAd.id)
        ++ [Event.dispatch (.pluginLoaded pluginAd)]
        ++ (stPrev.devices.filter
              (fun d => pluginAd.id ∈ d.supportedPlugins)).map
             (fun d => Event.call (.loadDevicePlugin d.serial pluginAd.id))
  ∧ (updateDevicePlugin envOk pluginAd true stPrev).1 = Except.ok () :=
  updateDevicePlugin_order_spec envOk pluginAd true stPrev (fun _ => rfl)

/-- Trace of the disable-loop body under a reliable environment. -/
theorem scpStopTrace_reliable (env : Env) (c : Client) (pid : String)
    (hrel : Env.reliable env) :
    scpStopTrace env c pid
      = stopPluginTrace env c pid false
        ++ [Event.dispatch (.clearMessageQueue (getPluginKey c.id pid))] := by
  have hf : ∀ call, env.fails call = false := hrel
  simp [scpStopTrace, stopPluginRes, hf]

/-- C4: `switchClientPlugin` is a toggle keyed off the registry's current
value: with no resolvable app it is a complete no-op; when the plugin is
enabled for the resolved app it stops the instance on every matching
client, clears each client's plugin message queue, and then dispatches
`setPluginDisabled`; when it is not enabled it starts the instance on every
matching client and then dispatches `setPluginEnabled`. -/
theorem switchClientPlugin_toggle_spec (env : Env)
    (plugin : PluginDefinition) (sel : Option String) (s : St) (app : String)
    (hrel : Env.reliable env) :
    (truthy (resolveApp sel s) = false →
       switchClientPlugin env plugin sel s = (Except.ok (), s))
  ∧ (resolveApp sel s = some app → app ≠ "" →
      plugin.id ∈ enabledFor s.enabledPlugins app →
      switchClientPlugin env plugin sel s
        = (Except.ok (),
           applyAction
             { s with trace := (s.trace
                 ++ (getClientsByAppName s.clients app).flatMap (fun c =>
                      stopPluginTrace env c plugin.id false
                        ++ [Event.dispatch (.clearMessageQueue
                              (getPluginKey c.id plugin.id))])) }
             (.setPluginDisabled plugin.id app)))
  ∧ (resolveApp sel s = some app → app ≠ "" →
      plugin.id ∉ enabledFor s.enabledPlugins app →
      switchClientPlugin env plugin sel s
        = (Except.ok (),
           applyAction
             { s with trace := (s.trace
                 ++ (getClientsByAppName s.clients app).flatMap (fun c =>
                      startPluginTrace env c plugin false)) }
             (.setPluginEnabled plugin.id app))) := by
  have hf : ∀ call, env.fails call = false := hrel
  refine ⟨?_, ?_, ?_⟩
  · intro h
    rw [switchClientPlugin_char, if_pos h]
  · intro h1 h2 h3
    have ht : truthy (resolveApp sel s) = true := by
      rw [h1]
      simp [truthy, h2]
    rw [switchClientPlugin_char, if_neg (by simp [ht]), h1]
    have hOk : ∀ c, c ∈ getClientsByAppName s.clients ((some app).getD "") →
        (fun c => stopBodyRes env c plugin.id) c = Except.ok () := by
      intro c hc
      simp [stopBodyRes, stopPluginRes, hf]
    obtain ⟨hr, htr⟩ := seq_allOk (fun c => stopBodyRes env c plugin.id)
      (fun c => scpStopTrace env c plugin.id)
      (getClientsByAppName s.clients ((some app).getD "")) hOk
    simp only [Option.getD] at hr htr ⊢
    rw [if_pos h3, hr, htr]
    have hcong : (fun c => scpStopTrace env c plugin.id)
        = fun c => stopPluginTrace env c plugin.id false
            ++ [Event.dispatch (.clearMessageQueue
                  (getPluginKey c.id plugin.id))] :=
      funext (fun c => scpStopTrace_reliable env c plugin.id hrel)
    rw [hcong]
  · intro h1 h2 h3
    have ht : truthy (resolveApp sel s) = true := by
      rw [h1]
      simp [truthy, h2]
    rw [switchClientPlugin_char, if_neg (by simp [ht]), h1]
    have hOk : ∀ c, c ∈ getClientsByAppName s.clients ((some app).getD "") →
        (fun c => startPluginRes env c plugin false) c = Except.ok () := by
      intro c hc
      exact startPluginRes_ok env c plugin false hrel
    obtain ⟨hr, htr⟩ := seq_allOk (fun c => startPluginRes env c plugin false)
      (fun c => startPluginTrace env c plugin false)
      (getClientsByAppName s.clients ((some app).getD "")) hOk
    simp only [Option.getD] at hr htr ⊢
    rw [if_neg h3, hr, htr]

/-- Witness for C4: disabling plugin `A` for `app1` stops it on the
matching client, clears its queue and marks it disabled. -/
theorem switchClientPlugin_toggle_spec_witness :
    switchClientPlugin envOk pluginA (some "app1") stEnabled
      = (Except.ok (),
         applyAction
           { stEnabled with trace := (stEnabled.trace
               ++ (getClientsByAppName stEnabled.clients "app1").flatMap
                    (fun c =>
                      stopPluginTrace envOk c pluginA.id false
                        ++ [Event.dispatch (.clearMessageQueue
                              (getPluginKey c.id pluginA.id))])) }
           (.setPluginDisabled pluginA.id "app1")) :=
  (switchClientPlugin_toggle_spec envOk pluginA (some "app1") stEnabled
      "app1" (fun _ => rfl)).2.1 rfl (by decide) (by decide)

/-- Looking up the key just inserted returns the inserted value. -/
theorem enabledFor_insertA (m : List (String × List String)) (app : String)
    (v : List String) : enabledFor (insertA m app v) app = v := by
  induction m with
  | nil => simp [insertA, enabledFor, lookupA]
  | cons kv rest ih =>
    rcases kv with ⟨k, v2⟩
    by_cases hk : k = app
    · simp [insertA, enabledFor, lookupA, hk]
    · simp only [insertA, if_neg hk]
      simp only [enabledFor, lookupA, if_neg hk] at ih ⊢
      exact ih

/-- After dispatching `setPluginEnabled`, the plugin is in the enabled set
of the target app. -/
theorem mem_enabledFor_after_enable (s : St) (pid app : String) :
    pid ∈ enabledFor
      (applyAction s (.setPluginEnabled pid app)).enabledPlugins app := by
  have hproj : (applyAction s (.setPluginEnabled pid app)).enabledPlugins
      = insertA s.enabledPlugins app
          (if pid ∈ enabledFor s.enabledPlugins app then
            enabledFor s.enabledPlugins app
           else enabledFor s.enabledPlugins app ++ [pid]) := rfl
  rw [hproj, enabledFor_insertA]
  split <;> simp_all

/-- C10: in `updateClientPlugin` with the enable flag set and an app
currently selected, the `setPluginEnabled` dispatch happens before the
affected-client set is computed, so a connected client of the selected app
that supports the plugin is stopped and restarted in the same invocation
even though the plugin was disabled for that app at entry. -/
theorem updateClientPlugin_includes_newly_enabled (env : Env)
    (plugin : PluginDefinition) (s : St) (c : Client) (cid app : String)
    (hrel : Env.reliable env)
    (hsel : s.selectedAppId = some cid)
    (happ : deconstructClientIdApp cid = app)
    (hne : app ≠ "")
    (hc : c ∈ s.clients)
    (hcapp : c.query.app = app)
    (hsupp : plugin.id ∈ c.supportedPlugins)
    (hdis : plugin.id ∉ enabledFor s.enabledPlugins app) :
    c ∈ updateClientAffected plugin true s
  ∧ Event.call (.stopPluginIfNeeded c.id plugin.id)
      ∈ ucpStopsTrace env plugin true s
  ∧ Event.call (.startPluginIfNeeded c.id plugin.id)
      ∈ ucpStartsTrace env plugin true s
  ∧ (updateClientPlugin env plugin true s).2.trace
      = s.trace ++ [Event.dispatch (.setPluginEnabled plugin.id app)]
        ++ ucpStopsTrace env plugin true s
        ++ ucpStartsTrace env plugin true s
        ++ [Event.dispatch (.pluginLoaded plugin)]
        ++ udpModuleTrace (lookupA s.clientPlugins plugin.id) := by
  have hf : ∀ call, env.fails call = false := hrel
  have hsa : getSelectedAppName s = some app := by
    simp [getSelectedAppName, hsel, happ]
  have htr : truthy (getSelectedAppName s) = true := by
    simp [hsa, truthy, hne]
  have hs₁ : updateClientEnabledState plugin true s
      = applyAction s (.setPluginEnabled plugin.id app) := by
    have htr2 : truthy (some app) = true := by simp [truthy, hne]
    simp [updateClientEnabledState, hsa, htr2]
  have hcAff : c ∈ updateClientAffected plugin true s := by
    simp only [updateClientAffected, List.mem_filter]
    refine ⟨hc, ?_⟩
    rw [hs₁]
    simp only [Bool.and_eq_true, decide_eq_true_eq]
    exact ⟨hsupp, by rw [hcapp]; exact mem_enabledFor_after_enable s plugin.id app⟩
  have hstopsOk : ∀ x, x ∈ updateClientAffected plugin true s →
      (fun x => stopBodyRes env x plugin.id) x = Except.ok () := by
    intro x hx
    simp [stopBodyRes, stopPluginRes, hf]
  have hstartsOk : ∀ x, x ∈ updateClientAffected plugin true s →
      (fun x => startPluginRes env x plugin true) x = Except.ok () := by
    intro x hx
    exact startPluginRes_ok env x plugin true hrel
  obtain ⟨hsrOk, hstTr⟩ := seq_allOk (fun x => stopBodyRes env x plugin.id)
    (fun x => stopPluginTrace env x plugin.id false)
    (updateClientAffected plugin true s) hstopsOk
  obtain ⟨hsr2Ok, hstTr2⟩ := seq_allOk
    (fun x => startPluginRes env x plugin true)
    (fun x => startPluginTrace env x plugin true)
    (updateClientAffected plugin true s) hstartsOk
  refine ⟨hcAff, ?_, ?_, ?_⟩
  · simp only [ucpStopsTrace]
    rw [hstTr]
    refine List.mem_flatMap.mpr ⟨c, hcAff, ?_⟩
    rw [stopPluginTrace_reliable env c plugin.id false hrel]
    exact List.mem_append.mpr (Or.inr (by simp))
  · simp only [ucpStartsTrace]
    rw [hstTr2]
    refine List.mem_flatMap.mpr ⟨c, hcAff, ?_⟩
    rw [startPluginTrace_reliable env c plugin true hrel]
    exact List.mem_append.mpr (Or.inl (by simp))
  · rw [updateClientPlugin_char]
    simp only [ucpStopsRes, ucpStartsRes]
    rw [hsrOk, hsr2Ok]
    cases hl : lookupA s.clientPlugins plugin.id <;>
      simp [applyAction_trace, hs₁, udpModuleTrace, List.append_assoc]

/-- Witness for C10: the disabled-at-entry client is included. -/
theorem updateClientPlugin_includes_newly_enabled_witness :
    clientBg ∈ updateClientAffected pluginA true stDisabledSel
  ∧ Event.call (.stopPluginIfNeeded clientBg.id pluginA.id)
      ∈ ucpStopsTrace envOk pluginA true stDisabledSel
  ∧ Event.call (.startPluginIfNeeded clientBg.id pluginA.id)
      ∈ ucpStartsTrace envOk pluginA true stDisabledSel
  ∧ (updateClientPlugin envOk pluginA true stDisabledSel).2.trace
      = stDisabledSel.trace
        ++ [Event.dispatch (.setPluginEnabled pluginA.id "app1")]
        ++ ucpStopsTrace envOk pluginA true stDisabledSel
        ++ ucpStartsTrace envOk pluginA true stDisabledSel
        ++ [Event.dispatch (.pluginLoaded pluginA)]
        ++ udpModuleTrace (lookupA stDisabledSel.clientPlugins pluginA.id) :=
  updateClientPlugin_includes_newly_enabled envOk pluginA stDisabledSel
    clientBg "app1#os#dev#serial1" "app1" (fun _ => rfl) rfl (by decide)
    (by decide) (by decide) rfl (by decide) (by decide)

/-- Processed counts distribute over concatenation. -/
theorem processedCounts_append (a b : List Event) :
    processedCounts (a ++ b) = processedCounts a ++ processedCounts b := by
  simp [processedCounts, List.filterMap_append]

/-- Events that are not `pluginCommandsProcessed` dispatches contribute no
count. -/
theorem processedCounts_cons_none (e : Event) (t : List Event)
    (h : processedOf e = none) :
    processedCounts (e :: t) = processedCounts t := by
  simp [processedCounts, List.filterMap_cons, h]

/-- The empty trace has no processed count. -/
theorem processedCounts_nil : processedCounts [] = [] := rfl

/-- `seqTrace` pieces without processed dispatches contribute no count. -/
theorem processedCounts_seqTrace {α : Type} (re : α → Except Unit Unit)
    (tr : α → List Event) (xs : List α)
    (h : ∀ a, processedCounts (tr a) = []) :
    processedCounts (seqTrace re tr xs) = [] := by
  induction xs with
  | nil => simp [seqTrace, processedCounts]
  | cons x rest ih =>
    simp only [seqTrace]
    cases re x with
    | error e => exact h x
    | ok u =>
      have hx := h x
      simp only [processedCounts, List.filterMap_append, List.append_eq_nil]
        at hx ih ⊢
      exact ⟨hx, ih⟩

/-- Stop traces carry no processed dispatch. -/
theorem processedCounts_stopPluginTrace (env : Env) (c : Client)
    (pid : String) (force : Bool) :
    processedCounts (stopPluginTrace env c pid force) = [] := by
  simp only [stopPluginTrace]
  split <;> split <;> simp [processedCounts, processedOf]

/-- Start traces carry no processed dispatch. -/
theorem processedCounts_startPluginTrace (env : Env) (c : Client)
    (plugin : PluginDefinition) (force : Bool) :
    processedCounts (startPluginTrace env c plugin force) = [] := by
  simp only [startPluginTrace]
  split <;> simp [processedCounts, processedOf]

/-- Disable-loop bodies carry no processed dispatch. -/
theorem processedCounts_scpStopTrace (env : Env) (c : Client)
    (pid : String) : processedCounts (scpStopTrace env c pid) = [] := by
  rw [scpStopTrace, processedCounts_append,
    processedCounts_stopPluginTrace]
  cases stopPluginRes env c pid false <;>
    simp [processedCounts, processedOf]

/-- Module-unload traces carry no processed dispatch. -/
theorem processedCounts_unloadPluginModuleTrace (d : PluginDetails) :
    processedCounts (unloadPluginModuleTrace d) = [] := by
  simp only [unloadPluginModuleTrace]
  split <;> simp [processedCounts, processedOf]

/-- The optional module-swap trace carries no processed dispatch. -/
theorem processedCounts_udpModuleTrace (prev : Option PluginDefinition) :
    processedCounts (udpModuleTrace prev) = [] := by
  cases prev with
  | none => rfl
  | some p => exact processedCounts_unloadPluginModuleTrace p.details

/-- The optional enable dispatch carries no processed dispatch. -/
theorem processedCounts_uces (plugin : PluginDefinition) (enable : Bool)
    (s : St) :
    processedCounts (updateClientEnabledState plugin enable s).trace
      = processedCounts s.trace := by
  rw [ucesTrace_eq, processedCounts_append]
  split <;> simp [processedCounts, processedOf]

/-- The optional device enable dispatch carries no processed dispatch. -/
theorem processedCounts_udes (plugin : PluginDefinition) (enable : Bool)
    (s : St) :
    processedCounts (updateDeviceEnabledState plugin enable s).trace
      = processedCounts s.trace := by
  rw [udesTrace_eq, processedCounts_append]
  split <;> simp [processedCounts, processedOf]

/-- `updateClientPlugin` never dispatches a processed count. -/
theorem updateClientPlugin_noProcessed (env : Env)
    (plugin : PluginDefinition) (enable : Bool) (s : St) :
    processedCounts ((updateClientPlugin env plugin enable s).2.trace)
      = processedCounts s.trace := by
  have hstops : processedCounts (ucpStopsTrace env plugin enable s) = [] :=
    processedCounts_seqTrace _ _ _
      (fun a => processedCounts_stopPluginTrace env a plugin.id false)
  have hstarts : processedCounts (ucpStartsTrace env plugin enable s) = [] :=
    processedCounts_seqTrace _ _ _
      (fun a => processedCounts_startPluginTrace env a plugin true)
  rw [updateClientPlugin_char]
  cases hsr : ucpStopsRes env plugin enable s with
  | error e =>
    simp [hsr, processedCounts_append, hstops, processedCounts_uces]
  | ok u =>
    cases hst : ucpStartsRes env plugin enable s with
    | error e =>
      simp [hsr, hst, processedCounts_append, hstops, hstarts,
        processedCounts_uces]
    | ok u2 =>
      cases hl : lookupA s.clientPlugins plugin.id with
      | none =>
        simp [hsr, hst, hl, applyAction_trace, processedCounts_append,
          hstops, hstarts, processedCounts_uces, processedCounts_cons_none,
          processedOf, processedCounts_nil]
      | some prev =>
        simp [hsr, hst, hl, applyAction_trace, processedCounts_append,
          hstops, hstarts, processedCounts_uces,
          processedCounts_unloadPluginModuleTrace,
          processedCounts_cons_none, processedOf, processedCounts_nil]

/-- `updateDevicePlugin` never dispatches a processed count. -/
theorem updateDevicePlugin_noProcessed (env : Env)
    (plugin : PluginDefinition) (enable : Bool) (s : St) :
    processedCounts ((updateDevicePlugin env plugin enable s).2.trace)
      = processedCounts s.trace := by
  have hu : processedCounts (udpUnloadsTrace env plugin
      (s.devices.filter (fun d => plugin.id ∈ d.supportedPlugins))) = [] :=
    processedCounts_seqTrace _ _ _ (fun a => rfl)
  have hl2 : processedCounts (udpLoadsTrace env plugin
      (s.devices.filter (fun d => plugin.id ∈ d.supportedPlugins))) = [] :=
    processedCounts_seqTrace _ _ _ (fun a => rfl)
  rw [updateDevicePlugin_char]
  simp only [udpAfter]
  cases hur : udpUnloadsRes env plugin
      (s.devices.filter (fun d => plugin.id ∈ d.supportedPlugins)) with
  | error e =>
    simp [hur, processedCounts_append, hu, processedCounts_udes]
  | ok u =>
    cases hmod : udpModuleRes env (lookupA s.devicePlugins plugin.id) with
    | error e =>
      simp [hur, hmod, processedCounts_append, hu,
        processedCounts_udpModuleTrace, processedCounts_udes]
    | ok u2 =>
      simp [hur, hmod, applyAction_trace, processedCounts_append, hu, hl2,
        processedCounts_udpModuleTrace, processedCounts_udes,
        processedCounts_cons_none, processedOf, processedCounts_nil]

/-- `updatePlugin` never dispatches a processed count. -/
theorem updatePlugin_noProcessed (env : Env) (plugin : PluginDefinition)
    (enable : Bool) (s : St) :
    processedCounts ((updatePlugin env plugin enable s).2.trace)
      = processedCounts s.trace := by
  cases h : plugin.isDevice <;> simp only [updatePlugin, h] <;>
    simp [updateClientPlugin_noProcessed, updateDevicePlugin_noProcessed]

/-- `switchPlugin` never dispatches a processed count. -/
theorem switchPlugin_noProcessed (env : Env) (plugin : PluginDefinition)
    (sel : Option String) (s : St) :
    processedCounts ((switchPlugin env plugin sel s).2.trace)
      = processedCounts s.trace := by
  have hstopsC : processedCounts (seqTrace
      (fun c => stopBodyRes env c plugin.id)
      (fun c => scpStopTrace env c plugin.id)
      (getClientsByAppName s.clients ((resolveApp sel s).getD ""))) = [] :=
    processedCounts_seqTrace _ _ _
      (fun a => processedCounts_scpStopTrace env a plugin.id)
  have hstartsC : processedCounts (seqTrace
      (fun c => startPluginRes env c plugin false)
      (fun c => startPluginTrace env c plugin false)
      (getClientsByAppName s.clients ((resolveApp sel s).getD ""))) = [] :=
    processedCounts_seqTrace _ _ _
      (fun a => processedCounts_startPluginTrace env a plugin false)
  have hunl : processedCounts (udpUnloadsTrace env plugin
      (s.devices.filter (fun d => plugin.id ∈ d.supportedPlugins))) = [] := by
    simp only [udpUnloadsTrace]
    exact processedCounts_seqTrace _ _ _ (fun a => rfl)
  have hload : processedCounts (udpLoadsTrace env plugin
      (s.devices.filter (fun d => plugin.id ∈ d.supportedPlugins))) = [] := by
    simp only [udpLoadsTrace]
    exact processedCounts_seqTrace _ _ _ (fun a => rfl)
  cases h : plugin.isDevice <;> simp only [switchPlugin, h, if_true,
    if_false, Bool.false_eq_true, ite_false, ite_true]
  · rw [switchClientPlugin_char]
    split
    · rfl
    · split
      · cases hsr : seqRes (fun c => stopBodyRes env c plugin.id)
            (getClientsByAppName s.clients
              ((resolveApp sel s).getD "")) with
        | error e =>
          simp [hsr, processedCounts_append, hstopsC]
        | ok u =>
          simp [hsr, applyAction_trace, processedCounts_append, hstopsC,
            processedCounts_cons_none, processedOf, processedCounts_nil]
      · cases hsr : seqRes (fun c => startPluginRes env c plugin false)
            (getClientsByAppName s.clients
              ((resolveApp sel s).getD "")) with
        | error e =>
          simp [hsr, processedCounts_append, hstartsC]
        | ok u =>
          simp [hsr, applyAction_trace, processedCounts_append, hstartsC,
            processedCounts_cons_none, processedOf, processedCounts_nil]
  · rw [switchDevicePlugin_char]
    split
    · cases hsr : udpUnloadsRes env plugin
          (s.devices.filter (fun d => plugin.id ∈ d.supportedPlugins)) with
      | error e =>
        simp [hsr, processedCounts_append, hunl]
      | ok u =>
        simp [hsr, applyAction_trace, processedCounts_append, hunl,
          processedCounts_cons_none, processedOf, processedCounts_nil]
    · cases hsr : udpLoadsRes env plugin
          (s.devices.filter (fun d => plugin.id ∈ d.supportedPlugins)) with
      | error e =>
        simp [hsr, processedCounts_append, hload]
      | ok u =>
        simp [hsr, applyAction_trace, processedCounts_append, hload,
          processedCounts_cons_none, processedOf, processedCounts_nil]

/-- The load catch block carries no processed dispatch. -/
theorem processedCounts_loadCatchTrace (payload : LoadPluginActionPayload) :
    processedCounts (loadCatchTrace payload) = [] := by
  rw [loadCatchTrace, processedCounts_append]
  split <;> simp [processedCounts, processedOf]

/-- `loadPlugin` never dispatches a processed count. -/
theorem loadPlugin_noProcessed (env : Env)
    (payload : LoadPluginActionPayload) (s : St) :
    processedCounts ((loadPlugin env payload s).2.trace)
      = processedCounts s.trace := by
  simp only [loadPlugin, tryCatchM]
  cases hreq : env.require payload.plugin with
  | none =>
    simp [loadCatch_char, processedCounts_append,
      processedCounts_loadCatchTrace]
  | some p =>
    rcases hu : updatePlugin env p payload.enable s with ⟨r, s2⟩
    have hup := updatePlugin_noProcessed env p payload.enable s
    rw [hu] at hup
    cases r <;>
      simp [hu, loadCatch_char, processedCounts_append,
        processedCounts_loadCatchTrace, hup]

/-- `uninstallPlugin` never dispatches a processed count. -/
theorem uninstallPlugin_noProcessed (env : Env)
    (plugin : PluginDefinition) (s : St) :
    processedCounts ((uninstallPlugin env plugin s).2.trace)
      = processedCounts s.trace := by
  have hstops : processedCounts (seqTrace
      (fun c => stopBodyRes env c plugin.id)
      (fun c => stopPluginTrace env c plugin.id false) s.clients) = [] :=
    processedCounts_seqTrace _ _ _
      (fun a => processedCounts_stopPluginTrace env a plugin.id false)
  rw [uninstallPlugin_char]
  cases hsr : seqRes (fun c => stopBodyRes env c plugin.id) s.clients with
  | error e =>
    simp [hsr, processedCounts_append, hstops, processedCounts_cons_none,
      processedOf, processedCounts_nil]
  | ok u =>
    cases hb : plugin.details.isBundled with
    | true =>
      simp [hsr, hb, applyAction_trace, processedCounts_append, hstops,
        processedCounts_cons_none, processedOf, processedCounts_nil]
    | false =>
      cases hm : unloadPluginModuleRes env plugin.details with
      | error e =>
        simp [hsr, hb, hm, processedCounts_append, hstops,
          processedCounts_unloadPluginModuleTrace,
          processedCounts_cons_none, processedOf, processedCounts_nil]
      | ok u2 =>
        simp [hsr, hb, hm, applyAction_trace, processedCounts_append,
          hstops, processedCounts_unloadPluginModuleTrace,
          processedCounts_cons_none, processedOf, processedCounts_nil]

/-- One caught command never dispatches a processed count. -/
theorem handleCommandCaught_noProcessed (env : Env)
    (command : PluginCommand) (s : St) :
    processedCounts (handleCommandCaught env command s).trace
      = processedCounts s.trace := by
  have hbase : processedCounts ((handleCommand env command s).2.trace)
      = processedCounts s.trace := by
    cases command with
    | loadPlugin payload => exact loadPlugin_noProcessed env payload s
    | uninstallPlugin plugin => exact uninstallPlugin_noProcessed env plugin s
    | updatePlugin plugin enablePlugin =>
      exact updatePlugin_noProcessed env plugin enablePlugin s
    | switchPlugin plugin selectedApp =>
      exact switchPlugin_noProcessed env plugin selectedApp s
  rw [handleCommandCaught]
  rcases hc : handleCommand env command s with ⟨r, s2⟩
  rw [hc] at hbase
  cases r <;>
    simp [processedCounts_append, processedCounts_cons_none, processedOf,
      processedCounts_nil, hbase]

/-- The drain loop never dispatches a processed count. -/
theorem drainLoop_noProcessed (env : Env) (queue : List PluginCommand)
    (s : St) :
    processedCounts (drainLoop env queue s).trace = processedCounts s.trace := by
  induction queue generalizing s with
  | nil => rfl
  | cons command rest ih =>
    rw [drainLoop, ih, handleCommandCaught_noProcessed]

/-- Draining a concatenation drains the parts in order. -/
theorem drainLoop_append (env : Env) (q₁ q₂ : List PluginCommand) (s : St) :
    drainLoop env (q₁ ++ q₂) s = drainLoop env q₂ (drainLoop env q₁ s) := by
  induction q₁ generalizing s with
  | nil => rfl
  | cons command rest ih => simp [drainLoop, ih]

/-- C1: the queue snapshot is handled strictly in FIFO order — draining a
concatenation first handles the prefix and then the suffix from the
resulting state; a throwing handler is caught, so the loop continues with
the next command from the caught state; and after the loop,
`pluginCommandsProcessed` is dispatched exactly once, with a count equal to
the snapshot's length, no matter how many handlers failed. -/
theorem processPluginCommandsQueue_spec (env : Env)
    (q₁ q₂ : List PluginCommand) (command : PluginCommand)
    (rest : List PluginCommand) (s : St) :
    processPluginCommandsQueue env (q₁ ++ q₂) s
      = applyAction (drainLoop env q₂ (drainLoop env q₁ s))
          (.pluginCommandsProcessed (q₁.length + q₂.length))
  ∧ drainLoop env (command :: rest) s
      = drainLoop env rest (handleCommandCaught env command s)
  ∧ processedCounts (processPluginCommandsQueue env (q₁ ++ q₂) s).trace
      = processedCounts s.trace ++ [q₁.length + q₂.length] := by
  refine ⟨?_, rfl, ?_⟩
  · rw [processPluginCommandsQueue, drainLoop_append]
    simp
  · rw [processPluginCommandsQueue, applyAction_trace,
      processedCounts_append, drainLoop_noProcessed]
    simp [processedCounts, processedOf]

/-- Witness for C1: a queue whose first handler throws still handles the
second command and reports the exact snapshot length. -/
theorem processPluginCommandsQueue_spec_witness :
    processPluginCommandsQueue envFailDeinit
        ([PluginCommand.updatePlugin pluginA false]
          ++ [PluginCommand.uninstallPlugin pluginB]) stEnabled
      = applyAction
          (drainLoop envFailDeinit [PluginCommand.uninstallPlugin pluginB]
            (drainLoop envFailDeinit [PluginCommand.updatePlugin pluginA false]
              stEnabled))
          (.pluginCommandsProcessed
            ([PluginCommand.updatePlugin pluginA false].length
              + [PluginCommand.uninstallPlugin pluginB].length))
  ∧ drainLoop envFailDeinit
        (PluginCommand.updatePlugin pluginA false
          :: [PluginCommand.uninstallPlugin pluginB]) stEnabled
      = drainLoop envFailDeinit [PluginCommand.uninstallPlugin pluginB]
          (handleCommandCaught envFailDeinit
            (PluginCommand.updatePlugin pluginA false) stEnabled)
  ∧ processedCounts (processPluginCommandsQueue envFailDeinit
        ([PluginCommand.updatePlugin pluginA false]
          ++ [PluginCommand.uninstallPlugin pluginB]) stEnabled).trace
      = processedCounts stEnabled.trace
        ++ [[PluginCommand.updatePlugin pluginA false].length
            + [PluginCommand.uninstallPlugin pluginB].length] :=
  processPluginCommandsQueue_spec envFailDeinit
    [PluginCommand.updatePlugin pluginA false]
    [PluginCommand.uninstallPlugin pluginB]
    (PluginCommand.updatePlugin pluginA false)
    [PluginCommand.uninstallPlugin pluginB] stEnabled

/-- `altScan` over a concatenation threads the expectation. -/
theorem altScan_append (e : Bool) (h1 h2 : List Hook) :
    altScan e (h1 ++ h2)
      = match altScan e h1 with
        | none => none
        | some e2 => altScan e2 h2 := by
  induction h1 generalizing e with
  | nil => simp [altScan]
  | cons h rest ih =>
    cases e <;> cases h <;> simp [altScan, ih]

/-- The initial state satisfies the invariant. -/
theorem ownerInv_initial : OwnerInv initialOwnerPluginState := by
  refine ⟨rfl, ?_, ?_⟩ <;> simp [initialOwnerPluginState]

/-- `startPluginIfNeeded` preserves the invariant. -/
theorem ownerInv_start (o : OwnerPluginState) (h : OwnerInv o) :
    OwnerInv (startPluginIfNeeded o) := by
  obtain ⟨h1, h2, h3⟩ := h
  cases hl : o.live with
  | some i => simpa [startPluginIfNeeded, hl] using ⟨h1, h2, h3⟩
  | none =>
    rw [hl] at h1
    refine ⟨?_, ?_, ?_⟩
    · simp [startPluginIfNeeded, hl, altScan_append, h1, altScan]
    · intro i hi
      simp [startPluginIfNeeded, hl] at hi
      simp [startPluginIfNeeded, hl, ← hi]
    · intro hk hmem
      simp [startPluginIfNeeded, hl] at hmem ⊢
      rcases hmem with hmem | hmem
      · exact Nat.lt_succ_of_lt (h3 hk hmem)
      · simp [hmem, hookId]

/-- `stopPluginIfNeeded` preserves the invariant. -/
theorem ownerInv_stop (o : OwnerPluginState) (h : OwnerInv o) :
    OwnerInv (stopPluginIfNeeded o) := by
  obtain ⟨h1, h2, h3⟩ := h
  cases hl : o.live with
  | none => simpa [stopPluginIfNeeded, hl] using ⟨h1, h2, h3⟩
  | some i =>
    rw [hl] at h1
    refine ⟨?_, ?_, ?_⟩
    · simp [stopPluginIfNeeded, hl, altScan_append, h1, altScan]
    · intro j hj
      simp [stopPluginIfNeeded, hl] at hj
    · intro hk hmem
      simp [stopPluginIfNeeded, hl] at hmem ⊢
      rcases hmem with hmem | hmem
      · exact h3 hk hmem
      · simp [hmem, hookId]
        exact h2 i hl

/-- Running any request sequence preserves the invariant. -/
theorem ownerInv_runOps (ops : List LifecycleOp) (o : OwnerPluginState)
    (h : OwnerInv o) : OwnerInv (runOps ops o) := by
  induction ops generalizing o with
  | nil => exact h
  | cons op rest ih =>
    cases op <;> simp only [runOps] <;>
      [exact ih _ (ownerInv_start o h); exact ih _ (ownerInv_stop o h)]

/-- C2 (spec-modelled): for every (owner, plugin) pair, connect and
disconnect hooks fire in strict alternation starting with connect (so at
most one instance is live at any time); after a start followed by a stop,
the instance is destroyed, and a subsequent start produces a new, distinct
instance object whose connect hook carries the new identity — the old
instance object is never reconnected. -/
theorem plugin_instance_lifecycle_spec (ops : List LifecycleOp) :
    alternates true (runOps ops initialOwnerPluginState).hooks = true
  ∧ (stopPluginIfNeeded (startPluginIfNeeded
      (runOps ops initialOwnerPluginState))).live = none
  ∧ (∃ i j,
      (startPluginIfNeeded (runOps ops initialOwnerPluginState)).live = some i
      ∧ (startPluginIfNeeded (stopPluginIfNeeded (startPluginIfNeeded
          (runOps ops initialOwnerPluginState)))).live = some j
      ∧ j ≠ i
      ∧ (startPluginIfNeeded (stopPluginIfNeeded (startPluginIfNeeded
          (runOps ops initialOwnerPluginState)))).hooks
          = (stopPluginIfNeeded (startPluginIfNeeded
              (runOps ops initialOwnerPluginState))).hooks
            ++ [Hook.connect j]) := by
  have hinv := ownerInv_runOps ops initialOwnerPluginState ownerInv_initial
  obtain ⟨h1, h2, h3⟩ := hinv
  refine ⟨?_, ?_, ?_⟩
  · simp [alternates, h1]
  · cases hl : (runOps ops initialOwnerPluginState).live <;>
      simp [startPluginIfNeeded, stopPluginIfNeeded, hl]
  · cases hl : (runOps ops initialOwnerPluginState).live with
    | none =>
      refine ⟨(runOps ops initialOwnerPluginState).nextId,
        (runOps ops initialOwnerPluginState).nextId + 1, ?_, ?_, ?_, ?_⟩ <;>
        simp [startPluginIfNeeded, stopPluginIfNeeded, hl]
    | some k =>
      refine ⟨k, (runOps ops initialOwnerPluginState).nextId, ?_, ?_, ?_, ?_⟩ <;>
        simp [startPluginIfNeeded, stopPluginIfNeeded, hl]
      exact Nat.ne_of_gt (h2 k hl)

/-- Witness for C2 at a concrete request sequence. -/
theorem plugin_instance_lifecycle_spec_witness :
    alternates true (runOps [LifecycleOp.start, LifecycleOp.stop,
        LifecycleOp.start] initialOwnerPluginState).hooks = true
  ∧ (stopPluginIfNeeded (startPluginIfNeeded
      (runOps [LifecycleOp.start, LifecycleOp.stop, LifecycleOp.start]
        initialOwnerPluginState))).live = none
  ∧ (∃ i j,
      (startPluginIfNeeded (runOps [LifecycleOp.start, LifecycleOp.stop,
          LifecycleOp.start] initialOwnerPluginState)).live = some i
      ∧ (startPluginIfNeeded (stopPluginIfNeeded (startPluginIfNeeded
          (runOps [LifecycleOp.start, LifecycleOp.stop, LifecycleOp.start]
            initialOwnerPluginState)))).live = some j
      ∧ j ≠ i
      ∧ (startPluginIfNeeded (stopPluginIfNeeded (startPluginIfNeeded
          (runOps [LifecycleOp.start, LifecycleOp.stop, LifecycleOp.start]
            initialOwnerPluginState)))).hooks
          = (stopPluginIfNeeded (startPluginIfNeeded
              (runOps [LifecycleOp.start, LifecycleOp.stop, LifecycleOp.start]
                initialOwnerPluginState))).hooks
            ++ [Hook.connect j]) :=
  plugin_instance_lifecycle_spec [LifecycleOp.start, LifecycleOp.stop,
    LifecycleOp.start]

/-- C5 (spec-modelled): a deep-link payload is delivered exactly once per
distinct selection event with that payload: an unrelated store update
delivers nothing; re-selecting the same plugin with an identical payload
while continuously selected delivers zero additional times; a fresh
selection or a different payload delivers once; deselecting and
reselecting with the same payload delivers once more; and the test
scenario delivers exactly "universe!", "london!", "london!". -/
theorem deepLink_dedup_spec (s : DeepLinkState) (p q pay pay2 : String)
    (hq : q ≠ p) (hpay : pay2 ≠ pay) :
    dlStep s DLEvent.unrelatedUpdate = s
  ∧ (dlStep (dlStep s (.selectPlugin p (some pay)))
        (.selectPlugin p (some pay))).deliveries
      = (dlStep s (.selectPlugin p (some pay))).deliveries
  ∧ (s.selected ≠ some p →
      (dlStep s (.selectPlugin p (some pay))).deliveries
        = s.deliveries ++ [(p, pay)])
  ∧ (s.selected = some p → s.lastDeepLink = some pay →
      (dlStep s (.selectPlugin p (some pay2))).deliveries
        = s.deliveries ++ [(p, pay2)])
  ∧ (dlStep (dlStep s (.selectPlugin q (some pay)))
        (.selectPlugin p (some pay))).deliveries
      = (dlStep s (.selectPlugin q (some pay))).deliveries ++ [(p, pay)]
  ∧ deliveriesTo "TestPlugin" (runDL (dlScenario.take 1)) = ["universe!"]
  ∧ deliveriesTo "TestPlugin" (runDL (dlScenario.take 2)) = ["universe!"]
  ∧ deliveriesTo "TestPlugin" (runDL (dlScenario.take 3)) = ["universe!"]
  ∧ deliveriesTo "TestPlugin" (runDL (dlScenario.take 4))
      = ["universe!", "london!"]
  ∧ deliveriesTo "TestPlugin" (runDL dlScenario)
      = ["universe!", "london!", "london!"] := by
  refine ⟨rfl, ?_, ?_, ?_, ?_, by decide, by decide, by decide, by decide,
    by decide⟩
  · by_cases h : (if s.selected = some p then s.lastDeepLink else none)
        = some pay
    · have hsel : s.selected = some p := by
        by_contra hc
        rw [if_neg hc] at h
        exact Option.noConfusion h
      rw [if_pos hsel] at h
      simp [dlStep, h, hsel]
    · simp [dlStep, h]
  · intro hsel
    simp [dlStep, hsel]
  · intro hsel hlast
    simp [dlStep, hsel, hlast, Ne.symm hpay]
  · by_cases h : (if s.selected = some q then s.lastDeepLink else none)
        = some pay
    · simp [dlStep, h, hq]
    · simp [dlStep, h, hq]

/-- Witness for C5 at a concrete state and payloads. -/
theorem deepLink_dedup_spec_witness :
    dlStep initialDeepLinkState DLEvent.unrelatedUpdate
      = initialDeepLinkState
  ∧ (dlStep (dlStep initialDeepLinkState
        (.selectPlugin "TestPlugin" (some "universe!")))
        (.selectPlugin "TestPlugin" (some "universe!"))).deliveries
      = (dlStep initialDeepLinkState
          (.selectPlugin "TestPlugin" (some "universe!"))).deliveries
  ∧ (initialDeepLinkState.selected ≠ some "TestPlugin" →
      (dlStep initialDeepLinkState
          (.selectPlugin "TestPlugin" (some "universe!"))).deliveries
        = initialDeepLinkState.deliveries ++ [("TestPlugin", "universe!")])
  ∧ (initialDeepLinkState.selected = some "TestPlugin" →
      initialDeepLinkState.lastDeepLink = some "universe!" →
      (dlStep initialDeepLinkState
          (.selectPlugin "TestPlugin" (some "london!"))).deliveries
        = initialDeepLinkState.deliveries ++ [("TestPlugin", "london!")])
  ∧ (dlStep (dlStep initialDeepLinkState
        (.selectPlugin "Logs" (some "universe!")))
        (.selectPlugin "TestPlugin" (some "universe!"))).deliveries
      = (dlStep initialDeepLinkState
          (.selectPlugin "Logs" (some "universe!"))).deliveries
        ++ [("TestPlugin", "universe!")]
  ∧ deliveriesTo "TestPlugin" (runDL (dlScenario.take 1)) = ["universe!"]
  ∧ deliveriesTo "TestPlugin" (runDL (dlScenario.take 2)) = ["universe!"]
  ∧ deliveriesTo "TestPlugin" (runDL (dlScenario.take 3)) = ["universe!"]
  ∧ deliveriesTo "TestPlugin" (runDL (dlScenario.take 4))
      = ["universe!", "london!"]
  ∧ deliveriesTo "TestPlugin" (runDL dlScenario)
      = ["universe!", "london!", "london!"] :=
  deepLink_dedup_spec initialDeepLinkState "TestPlugin" "Logs" "universe!"
    "london!" (by decide) (by decide)

/-- Witness for C8 at a concrete background plugin and client. -/
theorem startStop_background_signal_spec_witness :
    ((startPlugin envOk clientBg pluginA false st0).2.trace
        = st0.trace ++ [Event.call (.startPluginIfNeeded clientBg.id pluginA.id)]
          ++ (if bgGuard clientBg pluginA.id false then
               [Event.call (.initPlugin clientBg.id pluginA.id)]
              else []))
  ∧ ((stopPlugin envOk clientBg "A" false st0).2.trace
        = st0.trace
          ++ (if bgGuard clientBg "A" false then
               [Event.call (.deinitPlugin clientBg.id "A")]
              else [])
          ++ [Event.call (.stopPluginIfNeeded clientBg.id "A")])
  ∧ (bgGuard clientBg "A" false = true ↔
      ("A" ∈ clientBg.backgroundPlugins
        ∧ (false = true ∨ "A" ∉ defaultEnabledBackgroundPlugins)))
  ∧ (startPlugin envOk clientBg pluginA false st0).1 = Except.ok ()
  ∧ (stopPlugin envOk clientBg "A" false st0).1 = Except.ok true :=
  startStop_background_signal_spec envOk clientBg pluginA "A" false st0
    (fun _ => rfl)

end PluginManager
